import Mathlib

/-!
# Verification development for the syncthingts repository

A shallow embedding, in Lean 4, of the parts of the syncthingts TypeScript
sources that the specification claims talk about:

* `src/authentication.ts` — device-id check-digit computation,
* `src/peerSocket.ts` — relay protocol decoding and the join-session decision,
* `src/communication.ts` — the Index/IndexUpdate message reshaping,
* `src/sqlite.ts` — the relational store, modelled as lists of rows,
* `src/database.ts` — index application, cluster-config application,
  `attributes`, `blocksToSatisfyRead`,
* `src/request.ts` — the block request queue,
* `src/Syncthing.ts` — the public `read` operation.

JavaScript numbers appearing here are small exact integers, so they are
modelled as `Nat`/`Int`.  Byte buffers (`Uint8Array`/`Buffer`) are modelled as
`List Nat`.  External collaborators (node `crypto`, the filesystem, the
network) are modelled as explicit function parameters (oracles).  Fallible
code is modelled with `Option`/`Except`.
-/

namespace SyncthingTS

/-! ## JavaScript string helpers

The sources use JS `String.prototype.lastIndexOf`, `substring`, `endsWith`
and node's posix `path` module.  These are external library functions; they
are modelled here over `String.data` (a `List Char`) with structural
recursion so that everything kernel-evaluates.  All names handled by the
repository are ASCII, for which JS UTF-16 indices and Lean char indices
coincide. -/

/-- Index of the last occurrence of `c` in `l`, or `none`.  (Helper for the
JS `lastIndexOf`.) -/
def lastIdxOfChar (c : Char) : List Char → Option Nat
  | [] => none
  | x :: xs =>
    match lastIdxOfChar c xs with
    | some i => some (i + 1)
    | none => if x = c then some 0 else none

/-- JS `s.lastIndexOf(c)`: the last index of `c`, or `-1`. -/
def strLastIndexOf (s : String) (c : Char) : Int :=
  match lastIdxOfChar c s.data with
  | some i => (i : Int)
  | none => -1

/-- JS `s.substring(0, n)`: the first `n` characters. -/
def strTake (s : String) (n : Nat) : String :=
  String.mk (s.data.take n)

/-- JS `s.substring(n)`: everything from index `n` on. -/
def strDrop (s : String) (n : Nat) : String :=
  String.mk (s.data.drop n)

/-- JS `s.endsWith(c)` for a one-character suffix. -/
def strEndsWithChar (s : String) (c : Char) : Bool :=
  s.data.getLast? == some c

/-- JS `s.startsWith(c)` for a one-character prefix. -/
def strStartsWithChar (s : String) (c : Char) : Bool :=
  s.data.head? == some c

/-- JS `s.split(sep)` for a one-character separator (never returns an empty
list; splitting the empty string gives `[""]`). -/
def splitOnChar (c : Char) (l : List Char) : List String :=
  match l with
  | [] => [""]
  | x :: xs =>
    let rest := splitOnChar c xs
    if x = c then "" :: rest
    else
      match rest with
      | r :: rs => String.mk (x :: r.data) :: rs
      | [] => [String.mk [x]]

/-! ## A model of node's posix `path` module

Only the behaviour exercised by the repository is needed: absolute or
relative slash-separated ASCII paths without `.`/`..` segments. -/

/-- The subset of node `path.parse` output used by the sources. -/
structure ParsedPath where
  root : String
  dir : String
  base : String
deriving DecidableEq, Repr

/-- Drop trailing '/' characters. -/
def dropTrailingSlashes (l : List Char) : List Char :=
  (l.reverse.dropWhile (· = '/')).reverse

/-- node `path.posix.parse`: root, dir (text before the last separator) and
base (final component, trailing separators ignored). -/
def posixParse (p : String) : ParsedPath :=
  if p = "" then ⟨"", "", ""⟩
  else
    let root := if strStartsWithChar p '/' then "/" else ""
    let body := dropTrailingSlashes p.data
    if body = [] then ⟨root, root, ""⟩
    else
      match lastIdxOfChar '/' body with
      | none => ⟨root, root, String.mk body⟩
      | some i =>
        let dirChars := body.take i
        ⟨root, if dirChars = [] then root else String.mk dirChars,
          String.mk (body.drop (i + 1))⟩

/-- Collapse runs of '/' into a single '/'. -/
def collapseSlashes : List Char → List Char
  | [] => []
  | [x] => [x]
  | x :: y :: xs =>
    if x = '/' ∧ y = '/' then collapseSlashes (y :: xs)
    else x :: collapseSlashes (y :: xs)

/-- node `path.posix.join` restricted to segments without `.`/`..`: empty
segments are skipped, the rest are joined with '/' and runs of separators
collapsed; the empty join is `"."`. -/
def posixJoin (parts : List String) : String :=
  let s := String.intercalate "/" (parts.filter (fun x => x ≠ ""))
  if s = "" then "." else String.mk (collapseSlashes s.data)

/-- node `path.posix.dirname`. -/
def posixDirname (p : String) : String :=
  let pp := posixParse p
  if pp.dir = "" then "." else pp.dir

/-- node `path.posix.basename`. -/
def posixBasename (p : String) : String :=
  (posixParse p).base

/-! ## `src/authentication.ts`: device-id check digits

`Authentication.calculateCheckDigit` walks a group of characters with an
alternating weight.  JS specifics reproduced here:

* `alphabet.indexOf(character)` is `-1` for characters outside the alphabet,
  upon which the source throws; this is the `Except.error` case;
* `Math.floor((addend / 32) + (addend % 32))` works on exact small floats;
  since `addend % 32` is an integer, it equals `⌊addend / 32⌋ + addend % 32`,
  written below with `Nat` division;
* `alphabet[checkCodePoint]` is JS string indexing: out-of-range indices
  give `undefined`, modelled as `Option.none`. -/

/-- The base-32 alphabet from `calculateCheckDigit`. -/
def checkAlphabet : List Char := "ABCDEFGHIJKLMNOPQRSTUVWXYZ234567".data

/-- JS `alphabet.indexOf(c)` as an `Option`. -/
def alphaIdxOf (c : Char) : Option Nat :=
  checkAlphabet.indexOf? c

/-- The weighted sum accumulated by `calculateCheckDigit`; `factor`
alternates 1,2 starting at 1, and an invalid character throws. -/
def checkDigitSumGo : List Char → Nat → Nat → Except Unit Nat
  | [], sum, _ => .ok sum
  | c :: cs, sum, factor =>
    match alphaIdxOf c with
    | none => .error ()
    | some codePoint =>
      let addend := factor * codePoint
      checkDigitSumGo cs
        (sum + (addend / checkAlphabet.length + addend % checkAlphabet.length))
        (if factor = 1 then 2 else 1)

/-- `Authentication.calculateCheckDigit(group)`.  The source computes
`checkCodePoint = alphabetSize - (sum % alphabetSize)` with no outer
reduction modulo the alphabet size, then returns `alphabet[checkCodePoint]`,
which is `undefined` (here `none`) when `sum % 32 = 0`. -/
def calculateCheckDigit (group : List Char) : Except Unit (Option Char) :=
  (checkDigitSumGo group 0 1).map fun sum =>
    checkAlphabet.get? (checkAlphabet.length - sum % checkAlphabet.length)

/-- `Authentication.addCheckDigits(deviceId)`: split a 52-character id into
four groups of 13 and append each group's check digit.  JS appends the
string `"undefined"` when `calculateCheckDigit` evaluated to `undefined`. -/
def addCheckDigits (deviceId : String) : Except Unit String :=
  if deviceId.data.length ≠ 52 then .error ()
  else
    let groups := [deviceId.data.take 13, (deviceId.data.drop 13).take 13,
      (deviceId.data.drop 26).take 13, (deviceId.data.drop 39).take 13]
    groups.foldlM (fun acc g => do
      match ← calculateCheckDigit g with
      | some c => pure (acc ++ String.mk g ++ String.mk [c])
      | none => pure (acc ++ String.mk g ++ "undefined")) ""

/-! ## `src/peerSocket.ts`: relay protocol and the join-session decision

Byte buffers are `List Nat` (each element `< 256` for meaningful inputs).
`DataView.getUint32`/`getUint16` read big-endian and throw a `RangeError`
out of range; the decoder's `try`/`catch` turns that into a `null`
(`none`) message. -/

/-- Big-endian 32-bit read at `i` (callers guard the length as the JS
`DataView` would throw otherwise). -/
def getU32 (l : List Nat) (i : Nat) : Nat :=
  l.getD i 0 * 16777216 + l.getD (i + 1) 0 * 65536 + l.getD (i + 2) 0 * 256 +
    l.getD (i + 3) 0

/-- Big-endian 16-bit read at `i`. -/
def getU16 (l : List Nat) (i : Nat) : Nat :=
  l.getD i 0 * 256 + l.getD (i + 1) 0

/-- JS `TypedArray.subarray(b, e)` with clamping (negative indices count
from the end). -/
def jsSubarray (arr : List Nat) (b e : Int) : List Nat :=
  let n : Int := arr.length
  let b' := if b < 0 then max 0 (n + b) else min b n
  let e' := if e < 0 then max 0 (n + e) else min e n
  (arr.take e'.toNat).drop b'.toNat

/-- The decoded body of a relay `Response` message. -/
structure ResponseMessage where
  code : Nat
  messageLength : Nat
  message : List Nat
deriving DecidableEq, Repr

/-- The decoded body of a relay `SessionInvitation` message. -/
structure SessionInvitationMessage where
  fromLength : Nat
  fromId : List Nat
  keyLength : Nat
  key : List Nat
  addressLength : Nat
  address : List Nat
  port : Nat
deriving DecidableEq, Repr

/-- The `message` field of a decoded relay frame
(`SessionInvitationMessage | ResponseMessage | null`). -/
inductive RelayPayload where
  | response (r : ResponseMessage)
  | invitation (s : SessionInvitationMessage)
deriving DecidableEq, Repr

/-- A decoded relay frame (`RelayMessage` in the source). -/
structure RelayMessage where
  type : Nat
  length : Nat
  data : List Nat
  message : Option RelayPayload
deriving DecidableEq, Repr

/-- `PeerSocket.relayProtocolDecodeMessage`.  Frames shorter than 12 bytes
or without the magic value `0x9E79BC40` yield the sentinel
`{type 255, length 0}`; a `Response` (type 4) or `SessionInvitation`
(type 6) body is parsed, with any out-of-range read caught and the message
left `null`. -/
def relayProtocolDecodeMessage (data : List Nat) : RelayMessage :=
  if data.length < 12 ∨ getU32 data 0 ≠ 0x9E79BC40 then
    { type := 255, length := 0, data := [], message := none }
  else
    let base : RelayMessage :=
      { type := getU32 data 4, length := getU32 data 8,
        data := jsSubarray data 12 data.length, message := none }
    if base.type = 6 then
      -- SessionInvitation: sequential length-prefixed fields
      let fromLength := getU32 data 12
      let keyLengthIndex := 16 + fromLength
      let keyLength := getU32 data keyLengthIndex
      let addressLengthIndex := keyLengthIndex + 4 + keyLength
      let addressLength := getU32 data addressLengthIndex
      let portIndex := 2 + addressLengthIndex + 4 + addressLength
      if data.length < portIndex + 2 then base   -- RangeError caught, message stays null
      else
        { base with message := some (.invitation
          { fromLength := fromLength
            fromId := jsSubarray data 16 (16 + fromLength)
            keyLength := keyLength
            key := jsSubarray data (keyLengthIndex + 4) (keyLengthIndex + 4 + keyLength)
            addressLength := addressLength
            address := jsSubarray data (addressLengthIndex + 4)
              (addressLengthIndex + 4 + addressLength)
            port := getU16 data portIndex }) }
    else if base.type = 4 then
      -- Response: code (u32 at 12), messageLength (u32 at 16), body
      if data.length < 20 then base   -- RangeError caught, message stays null
      else
        { base with message := some (.response
          { code := getU32 data 12
            messageLength := getU32 data 16
            message := jsSubarray data 20 (20 + getU32 data 16) }) }
    else base

/-- What `PeerSocket.connect` does with the reply to the
`JoinSessionRequest` (the code after the second `relayRequest` await). -/
inductive JoinOutcome where
  /-- reply is not a `Response`: error logged, session socket destroyed,
  connect returns. -/
  | notResponse
  /-- `response.code` threw (message was `null`): caught by the outer
  `catch`, connect returns without destroying or upgrading the socket. -/
  | thrown
  /-- code = `ResponseNotFound` (1): error logged, session socket
  destroyed, connect returns. -/
  | notFound
  /-- any other case: the session socket is wrapped in TLS
  (`this.socket = connect({socket: this.insecureSocket, ...})`). -/
  | upgraded
deriving DecidableEq, Repr

/-- The decision taken by `PeerSocket.connect` on `sessionRequestReply`
(peerSocket.ts lines 300–319).  Note the source compares the code only
against `SessionJoinResponse.ResponseNotFound` (1). -/
def joinSessionOutcome (reply : RelayMessage) : JoinOutcome :=
  if reply.type ≠ 4 then .notResponse
  else
    match reply.message with
    | none => .thrown
    | some (.invitation _) => .upgraded   -- cast has no `code` property; `undefined === 1` is false
    | some (.response r) => if r.code = 1 then .notFound else .upgraded

/-! ## `src/constants.ts`: enumerations and internal shapes -/

/-- `SyncStatus.none`. -/
def syncNone : Nat := 0
/-- `SyncStatus.download`. -/
def syncDownload : Nat := 1
/-- `SyncStatus.full`. -/
def syncFull : Nat := 2

/-- `FileFlags.deleted` (bit 0). -/
def flagDeleted : Nat := 1
/-- `FileFlags.invalid` (bit 1). -/
def flagInvalid : Nat := 2
/-- `FileFlags.noPermissions` (bit 2). -/
def flagNoPermissions : Nat := 4

/-- `RequestPriority.background`. -/
def priorityBackground : Nat := 0
/-- `RequestPriority.user`. -/
def priorityUser : Nat := 1

/-- `Block` (constants.ts). -/
structure Block where
  offset : Int
  size : Int
  hash : List Nat
  cached : Nat
deriving DecidableEq, Repr

/-- `File` (constants.ts). -/
structure File where
  name : String
  size : Int
  permissions : Nat
  modifiedS : Int
  modifiedNs : Int
  modifiedBy : List Nat
  flags : Nat
  sequence : Nat
  blockSize : Nat
  version : String
  symlinkTarget : String
  sync : Nat
  blocks : List Block
deriving DecidableEq, Repr

/-- `Directory` (constants.ts). -/
structure Directory where
  name : String
  permissions : Nat
  modifiedS : Int
  modifiedNs : Int
  modifiedBy : List Nat
  flags : Nat
  sequence : Nat
  version : String
  sync : Nat
  files : List File
deriving DecidableEq, Repr

/-- `Index` (constants.ts). -/
structure Index where
  folder : String
  directories : List Directory
deriving DecidableEq, Repr

/-- `Device` (constants.ts). -/
structure Device where
  id : List Nat
  folderIdString : String
  name : String
  addresses : String
  maxSequence : Int
  indexId : List Nat
deriving DecidableEq, Repr

/-- `Folder` (constants.ts). -/
structure Folder where
  idString : String
  label : String
  path : String
  flags : Nat
  devices : List Device
deriving DecidableEq, Repr

/-- `Cluster` (constants.ts). -/
structure Cluster where
  folders : List Folder
deriving DecidableEq, Repr

/-- `ListEntry` (constants.ts); `modified` is a JS `Date`, modelled by its
millisecond epoch value. -/
structure ListEntry where
  type : Nat
  name : String
  size : Int
  permissions : Nat
  modifiedMs : Int
  modifiedBy : Nat
deriving DecidableEq, Repr

/-! ## `src/sqlite.ts`: the relational store, modelled as lists of rows

Each table is a list of row structures; `sql.get` (first matching row) is
`List.find?`, `INSERT` appends (with `nextXId` playing sqlite's
autoincrement rowid), and `UPDATE ... WHERE` maps over the rows matching
the `WHERE` key, writing exactly the columns the corresponding sqlite.ts
helper puts in its `data` object.

`isRowEqual` iterates the keys of the in-memory object that also exist in
the row, minus the ignore list; empty strings round-trip to `NULL` and
back, which collapses to plain field equality here, so each use is
specialised to the concrete pair of shapes it is called with. -/

/-- `FolderRow` (sqlite.ts). -/
structure FolderRow where
  id : Nat
  idString : String
  label : String
  path : String
  flags : Nat
deriving DecidableEq, Repr

/-- `DeviceRow` (sqlite.ts). -/
structure DeviceRow where
  id : List Nat
  folderId : Nat
  name : String
  addresses : String
  maxSequence : Int
  maxSequenceInternal : Nat
  indexId : List Nat
deriving DecidableEq, Repr

/-- `DirectoryRow` (sqlite.ts). -/
structure DirectoryRow where
  id : Nat
  folderId : Nat
  name : String
  permissions : Nat
  modifiedS : Int
  modifiedNs : Int
  modifiedBy : List Nat
  flags : Nat
  sequence : Nat
  version : String
  sync : Nat
deriving DecidableEq, Repr

/-- `FileRow` (sqlite.ts). -/
structure FileRow where
  id : Nat
  name : String
  directoryId : Nat
  size : Int
  permissions : Nat
  modifiedS : Int
  modifiedNs : Int
  modifiedBy : List Nat
  flags : Nat
  sequence : Nat
  blockSize : Nat
  version : String
  symlinkTarget : String
  sync : Nat
deriving DecidableEq, Repr

/-- `BlockRow` (sqlite.ts). -/
structure BlockRow where
  fileId : Nat
  offset : Int
  size : Int
  hash : List Nat
  cached : Nat
deriving DecidableEq, Repr

/-- The whole store (tables `folder`, `device`, `directory`, `file`,
`block`, plus the three autoincrement counters). -/
structure Db where
  folders : List FolderRow
  devices : List DeviceRow
  directories : List DirectoryRow
  files : List FileRow
  blocks : List BlockRow
  nextFolderId : Nat
  nextDirectoryId : Nat
  nextFileId : Nat
deriving DecidableEq, Repr

/-- `Sqlite.getFolder` (`SELECT * FROM folder WHERE idString = ?`). -/
def Db.getFolder (db : Db) (idString : String) : Option FolderRow :=
  db.folders.find? (fun r => r.idString == idString)

/-- `Sqlite.addFolder`; returns the new store and `lastInsertRowid`. -/
def Db.addFolder (db : Db) (f : Folder) : Db × Nat :=
  ({ db with
      folders := db.folders ++
        [{ id := db.nextFolderId, idString := f.idString, label := f.label,
           path := f.path, flags := f.flags }]
      nextFolderId := db.nextFolderId + 1 },
   db.nextFolderId)

/-- `Sqlite.updateFolder` (keyed by rowid; writes idString, label, path,
flags). -/
def Db.updateFolder (db : Db) (f : Folder) (id : Nat) : Db :=
  { db with
      folders := db.folders.map fun r =>
        if r.id == id then
          { r with
            idString := f.idString
            label := f.label
            path := f.path
            flags := f.flags }
        else r }

/-- `Sqlite.getDevice` (`WHERE id = ? AND folderId = ?`). -/
def Db.getDevice (db : Db) (folderId : Nat) (id : List Nat) : Option DeviceRow :=
  db.devices.find? (fun r => r.id == id && r.folderId == folderId)

/-- `Sqlite.addDevice`; for the self device the stored `indexId` is
`randomBytes(8)`, supplied here as `randIndexId`.  `maxSequenceInternal`
starts at 0. -/
def Db.addDevice (db : Db) (d : Device) (folderId : Nat) (isSelf : Bool)
    (randIndexId : List Nat) : Db :=
  { db with
      devices := db.devices ++
        [{ id := d.id, folderId := folderId, name := d.name,
           addresses := d.addresses, maxSequence := d.maxSequence,
           maxSequenceInternal := 0,
           indexId := if isSelf then randIndexId else d.indexId }] }

/-- `Sqlite.updateDevice` (keyed by `(id, folderId)`; writes
maxSequenceInternal, name, addresses, maxSequence, indexId). -/
def Db.updateDevice (db : Db) (d : Device) (id : List Nat) (folderId : Nat)
    (maxSequenceInternal : Nat) : Db :=
  { db with
      devices := db.devices.map fun r =>
        if r.id == id && r.folderId == folderId then
          { r with
            maxSequenceInternal := maxSequenceInternal
            name := d.name
            addresses := d.addresses
            maxSequence := d.maxSequence
            indexId := d.indexId }
        else r }

/-- `Sqlite.updateSequence` (keyed by `(id, folderId)`; writes
maxSequenceInternal and folderId). -/
def Db.updateSequence (db : Db) (deviceId : List Nat) (folderId : Nat)
    (sequence : Nat) : Db :=
  { db with
      devices := db.devices.map fun r =>
        if r.id == deviceId && r.folderId == folderId then
          { r with
            maxSequenceInternal := sequence
            folderId := folderId }
        else r }

/-- `Sqlite.getDirectory` (`WHERE name = ? AND folderId = ?`). -/
def Db.getDirectory (db : Db) (folderId : Nat) (name : String) :
    Option DirectoryRow :=
  db.directories.find? (fun r => r.name == name && r.folderId == folderId)

/-- `Sqlite.getDirectoryFolderPath` (join with `folder` on
`folder.path`). -/
def Db.getDirectoryFolderPath (db : Db) (folderPath : String) (name : String) :
    Option DirectoryRow :=
  db.directories.find? (fun r =>
    r.name == name &&
      (db.folders.find? (fun fo => fo.id == r.folderId)).any
        (fun fo => fo.path == folderPath))

/-- `Sqlite.addDirectory`; returns the new store and `lastInsertRowid`. -/
def Db.addDirectory (db : Db) (d : Directory) (folderId : Nat) : Db × Nat :=
  ({ db with
      directories := db.directories ++
        [{ id := db.nextDirectoryId, folderId := folderId, name := d.name,
           permissions := d.permissions, modifiedS := d.modifiedS,
           modifiedNs := d.modifiedNs, modifiedBy := d.modifiedBy,
           flags := d.flags, sequence := d.sequence, version := d.version,
           sync := d.sync }]
      nextDirectoryId := db.nextDirectoryId + 1 },
   db.nextDirectoryId)

/-- `Sqlite.updateDirectory` (keyed by rowid). -/
def Db.updateDirectory (db : Db) (d : Directory) (folderId : Nat) (id : Nat) :
    Db :=
  { db with
      directories := db.directories.map fun r =>
        if r.id == id then
          { r with
            folderId := folderId
            name := d.name
            permissions := d.permissions
            modifiedS := d.modifiedS
            modifiedNs := d.modifiedNs
            modifiedBy := d.modifiedBy
            flags := d.flags
            sequence := d.sequence
            version := d.version
            sync := d.sync }
        else r }

/-- `Sqlite.getFile` (`WHERE name = ? AND directoryId = ?`). -/
def Db.getFile (db : Db) (directoryId : Nat) (name : String) : Option FileRow :=
  db.files.find? (fun r => r.name == name && r.directoryId == directoryId)

/-- `Sqlite.getFileParentName` (join through `directory` and `folder`). -/
def Db.getFileParentName (db : Db) (folderPath : String)
    (directoryName : String) (name : String) : Option FileRow :=
  db.files.find? (fun r =>
    r.name == name &&
      (db.directories.find? (fun d => d.id == r.directoryId)).any (fun d =>
        d.name == directoryName &&
          (db.folders.find? (fun fo => fo.id == d.folderId)).any
            (fun fo => fo.path == folderPath)))

/-- `Sqlite.addFile`; returns the new store and `lastInsertRowid`. -/
def Db.addFile (db : Db) (f : File) (directoryId : Nat) : Db × Nat :=
  ({ db with
      files := db.files ++
        [{ id := db.nextFileId, name := f.name, directoryId := directoryId,
           size := f.size, permissions := f.permissions,
           modifiedS := f.modifiedS, modifiedNs := f.modifiedNs,
           modifiedBy := f.modifiedBy, flags := f.flags,
           sequence := f.sequence, blockSize := f.blockSize,
           version := f.version, symlinkTarget := f.symlinkTarget,
           sync := f.sync }]
      nextFileId := db.nextFileId + 1 },
   db.nextFileId)

/-- `Sqlite.updateFile` (keyed by rowid). -/
def Db.updateFile (db : Db) (f : File) (directoryId : Nat) (id : Nat) : Db :=
  { db with
      files := db.files.map fun r =>
        if r.id == id then
          { r with
            name := f.name
            directoryId := directoryId
            size := f.size
            permissions := f.permissions
            modifiedS := f.modifiedS
            modifiedNs := f.modifiedNs
            modifiedBy := f.modifiedBy
            flags := f.flags
            sequence := f.sequence
            blockSize := f.blockSize
            version := f.version
            symlinkTarget := f.symlinkTarget
            sync := f.sync }
        else r }

/-- Insertion sort by block offset (ties keep order). -/
def insertByOffset (b : BlockRow) : List BlockRow → List BlockRow
  | [] => [b]
  | x :: xs => if b.offset < x.offset then b :: x :: xs else x :: insertByOffset b xs

/-- Sort block rows by offset (`ORDER BY offset`). -/
def sortByOffset (l : List BlockRow) : List BlockRow :=
  l.foldr insertByOffset []

/-- `Sqlite.getBlocks` (`WHERE fileId = ? ORDER BY offset`). -/
def Db.getBlocks (db : Db) (fileId : Nat) : List BlockRow :=
  sortByOffset (db.blocks.filter (fun r => r.fileId == fileId))

/-- `Sqlite.addBlock` (insert with the given fileId). -/
def Db.addBlock (db : Db) (b : Block) (fileId : Nat) : Db :=
  { db with
      blocks := db.blocks ++
        [{ fileId := fileId, offset := b.offset, size := b.size,
           hash := b.hash, cached := b.cached }] }

/-- `Sqlite.updateBlock` (keyed by `(fileId, offset)`; may move the row to
a new offset). -/
def Db.updateBlockRow (db : Db) (b : Block) (fileId : Nat) (offset : Int) : Db :=
  { db with
      blocks := db.blocks.map fun r =>
        if r.fileId == fileId && r.offset == offset then
          { r with
            offset := b.offset
            size := b.size
            hash := b.hash
            cached := b.cached
            fileId := fileId }
        else r }

/-- `Sqlite.deleteBlock` (keyed by `(fileId, offset)`). -/
def Db.deleteBlock (db : Db) (fileId : Nat) (offset : Int) : Db :=
  { db with
      blocks := db.blocks.filter fun r =>
        !(r.fileId == fileId && r.offset == offset) }

/-- `Sqlite.getBlocksOffset`: blocks of `(folderPath, directoryName,
fileName)` overlapping `[position, position + length)`, ordered by
offset. -/
def Db.getBlocksOffset (db : Db) (folderPath : String) (directoryName : String)
    (fileName : String) (position : Int) (length : Int) : List BlockRow :=
  sortByOffset <| db.blocks.filter fun b =>
    b.offset < position + length && b.offset + b.size > position &&
      (db.files.find? (fun f => f.id == b.fileId)).any (fun f =>
        f.name == fileName &&
          (db.directories.find? (fun d => d.id == f.directoryId)).any (fun d =>
            d.name == directoryName &&
              (db.folders.find? (fun fo => fo.id == d.folderId)).any
                (fun fo => fo.path == folderPath)))

/-! ### `isRowEqual` specialisations

The generic `Sqlite.isRowEqual(data, row, ignore)` compares every key of
`data` that exists on `row` and is not in `ignore`.  The keys compared for
each call site in the sources are written out below. -/

/-- `isRowEqual(folder, folderRow)`: idString, label, path, flags
(`devices` does not exist on the row). -/
def folderRowEqData (f : Folder) (r : FolderRow) : Bool :=
  f.idString == r.idString && f.label == r.label && f.path == r.path &&
    f.flags == r.flags

/-- `isRowEqual(device, deviceRow)`: id, name, addresses, maxSequence,
indexId (`folderIdString` does not exist on the row;
`maxSequenceInternal` is not a key of the in-memory device). -/
def deviceRowEqData (d : Device) (r : DeviceRow) : Bool :=
  d.id == r.id && d.name == r.name && d.addresses == r.addresses &&
    d.maxSequence == r.maxSequence && d.indexId == r.indexId

/-- `isRowEqual(directory, directoryRow, ['sequence'])`. -/
def directoryRowEqNoSeq (d : Directory) (r : DirectoryRow) : Bool :=
  d.name == r.name && d.permissions == r.permissions &&
    d.modifiedS == r.modifiedS && d.modifiedNs == r.modifiedNs &&
    d.modifiedBy == r.modifiedBy && d.flags == r.flags &&
    d.version == r.version && d.sync == r.sync

/-- `isRowEqual(file, fileRow, ['sequence'])`. -/
def fileRowEqNoSeq (f : File) (r : FileRow) : Bool :=
  f.name == r.name && f.size == r.size && f.permissions == r.permissions &&
    f.modifiedS == r.modifiedS && f.modifiedNs == r.modifiedNs &&
    f.modifiedBy == r.modifiedBy && f.flags == r.flags &&
    f.blockSize == r.blockSize && f.version == r.version &&
    f.symlinkTarget == r.symlinkTarget && f.sync == r.sync

/-- `isRowEqual(block, blockRows[i], ['cached'])`. -/
def blockEqNoCached (b : Block) (r : BlockRow) : Bool :=
  b.offset == r.offset && b.size == r.size && b.hash == r.hash

/-! ## `src/database.ts`: index application

`Database.updateIndex` runs one transaction per message.  The embedding
instruments the run with an event log recording, for every row mutation,
the data that the specification's conditions talk about (the parent
directory's sync at processing time, the previous row's own sync, the
assigned sequence).  The `updated` return flag itself is computed exactly
as the source computes it. -/

/-- One logged mutation of an `updateIndex` run. -/
inductive UEvent where
  /-- the lazily created root directory row, with its assigned sequence. -/
  | rootAdded (seq : Nat)
  /-- a directory or file row inserted; `parentSync` is the sync inherited
  from the parent directory, `seq` the assigned sequence. -/
  | entryAdded (parentSync seq : Nat)
  /-- a directory or file row updated; `parentSync` is the parent
  directory's sync at processing time, `rowSync` the existing row's own
  sync, `seq` the assigned sequence. -/
  | entryUpdated (parentSync rowSync seq : Nat)
  /-- a block row inserted, updated in place, or stale-marked (the cases
  that set `updated` in `updateBlocks`). -/
  | blockRowMutated
  /-- an uncached surplus block row deleted (does not set `updated`). -/
  | blockRowDeleted
deriving DecidableEq, Repr

/-- The trailing part of the pairwise reconciliation loop of
`Database.updateBlocks` (`i ≥ blocks.length`: only existing rows remain;
the source's sort of the incoming list is a no-op — its brace-bodied
arrow comparator returns `undefined`, which sorts as 0 — so the incoming
order is kept). -/
def updateBlocksTail (fileId : Nat) :
    List BlockRow → Db → Db × Bool × List UEvent
  | [], db => (db, false, [])
  | row :: rs, db =>
    -- more rows than peer blocks
    if row.cached ≠ 0 then
      let r := updateBlocksTail fileId rs (db.updateBlockRow
        { offset := row.offset, size := 0, hash := row.hash, cached := 2 }
        fileId row.offset)
      (r.1, true, .blockRowMutated :: r.2.2)
    else
      let r := updateBlocksTail fileId rs (db.deleteBlock fileId row.offset)
      (r.1, r.2.1, .blockRowDeleted :: r.2.2)

/-- The paired part of the reconciliation loop (`i < blocks.length`). -/
def updateBlocksGo (fileId : Nat) :
    List Block → List BlockRow → Db → Db × Bool × List UEvent
  | [], rows, db => updateBlocksTail fileId rows db
  | b :: bs, [], db =>
    -- more peer blocks than rows: insert with cached = 0
    let r := updateBlocksGo fileId bs [] (db.addBlock { b with cached := 0 } fileId)
    (r.1, true, .blockRowMutated :: r.2.2)
  | b :: bs, row :: rs, db =>
    if blockEqNoCached b row then
      updateBlocksGo fileId bs rs db
    else
      -- update in place; a previously cached row downgrades the block to stale
      let b' := if row.cached = 1 then { b with cached := 2 } else b
      let r := updateBlocksGo fileId bs rs (db.updateBlockRow b' fileId row.offset)
      (r.1, true, .blockRowMutated :: r.2.2)

/-- `Database.updateBlocks(fileId, blocks)`: reconcile the stored rows of
`fileId` with the peer's list; returns the new store, the `updated` flag
and the event log. -/
def updateBlocks (fileId : Nat) (blocks : List Block) (db : Db) :
    Db × Bool × List UEvent :=
  updateBlocksGo fileId blocks (db.getBlocks fileId) db

/-- The threaded state of an `updateIndex` run. -/
structure UIxState where
  db : Db
  seq : Nat
  updated : Bool
  log : List UEvent
deriving DecidableEq, Repr

/-- Processing of one file of a directory (`Database.updateIndex` inner
loop, with `Database.updateEntry` inlined for the file shape).  `sync` is
the `parentSync` passed down; `dirId` the directory's rowid. -/
def fileStep (dirId sync : Nat) (st : UIxState) (file : File) : UIxState :=
  match st.db.getFile dirId file.name with
  | none =>
    if file.flags &&& flagDeleted ≠ 0 then st   -- no row and already deleted: skip
    else
      let file' := { file with sequence := st.seq, sync := sync }
      let add := st.db.addFile file' dirId
      let ub := updateBlocks add.2 file'.blocks add.1
      { db := ub.1, seq := st.seq + 1
        updated := st.updated || (sync == syncFull) || ub.2.1
        log := st.log ++ [.entryAdded sync st.seq] ++ ub.2.2 }
  | some row =>
    if fileRowEqNoSeq file row then
      let ub := updateBlocks row.id file.blocks st.db
      { db := ub.1, seq := st.seq, updated := st.updated || ub.2.1,
        log := st.log ++ ub.2.2 }
    else
      let file' := { file with sequence := st.seq }
      let ub := updateBlocks row.id file'.blocks (st.db.updateFile file' dirId row.id)
      { db := ub.1, seq := st.seq + 1
        updated := st.updated || (row.sync == syncFull) || ub.2.1
        log := st.log ++ [.entryUpdated sync row.sync st.seq] ++ ub.2.2 }

/-- The `parentSync` derivation of the `updateIndex` outer loop: when
the name has a separator beyond position 0, look the parent directory up
and inherit its sync; otherwise (or when the parent is unknown) 0. -/
def dirSync (folderId : Nat) (db : Db) (dir : Directory) : Nat :=
  if strLastIndexOf dir.name '/' > 0 then
    match db.getDirectory folderId
      (strTake dir.name (strLastIndexOf dir.name '/').toNat) with
    | some parentRow => parentRow.sync
    | none => 0
  else 0

/-- The upsert part of the `updateIndex` outer loop for one directory,
given the derived `parentSync` (`Database.updateEntry` inlined for the
directory shape), followed by the file loop. -/
def dirStepCore (folderId sync : Nat) (st : UIxState) (dir : Directory) :
    UIxState :=
  match st.db.getDirectory folderId dir.name with
  | none =>
    if dir.flags &&& flagDeleted ≠ 0 then st   -- no row and already deleted: skip (files included)
    else
      let dir' := { dir with sequence := st.seq, sync := sync }
      let add := st.db.addDirectory dir' folderId
      let st1 : UIxState :=
        { db := add.1, seq := st.seq + 1
          updated := st.updated || (sync == syncFull)
          log := st.log ++ [.entryAdded sync st.seq] }
      dir.files.foldl (fileStep add.2 sync) st1
  | some row =>
    if directoryRowEqNoSeq dir row then
      dir.files.foldl (fileStep row.id sync) st
    else
      let dir' := { dir with sequence := st.seq }
      let db1 := st.db.updateDirectory dir' folderId row.id
      let st1 : UIxState :=
        { db := db1, seq := st.seq + 1
          updated := st.updated || (row.sync == syncFull)
          log := st.log ++ [.entryUpdated sync row.sync st.seq] }
      dir.files.foldl (fileStep row.id sync) st1

/-- Processing of one directory of an index message (`Database.updateIndex`
outer loop): derive `parentSync`, then upsert the directory and walk its
files. -/
def dirStep (folderId : Nat) (st : UIxState) (dir : Directory) : UIxState :=
  dirStepCore folderId (dirSync folderId st.db dir) st dir

/-- The lazily created root directory entry of `Database.updateIndex`. -/
def rootDirectoryEntry (seq : Nat) : Directory :=
  { name := "/", permissions := 493, flags := 0, sequence := seq, sync := 0,
    modifiedS := 0, modifiedNs := 0, modifiedBy := [], version := "",
    files := [] }

/-- `Database.updateIndex(index)` for the device `deviceId`: one exclusive
transaction; a missing folder or device row throws, which rolls the
transaction back and returns the `updated` flag accumulated so far
(`false` at that point).  When the flag is set, the final sequence value is
persisted through `updateSequence`; otherwise it is not.  Returns the
committed store, the `updated` return value, and the event log. -/
def updateIndex (deviceId : List Nat) (db : Db) (index : Index) :
    Db × Bool × List UEvent :=
  match db.getFolder index.folder with
  | none => (db, false, [])
  | some folderRow =>
    match db.getDevice folderRow.id deviceId with
    | none => (db, false, [])
    | some deviceRow =>
      let seq0 := deviceRow.maxSequenceInternal
      let st0 : UIxState :=
        match db.getDirectory folderRow.id "/" with
        | none =>
          { db := (db.addDirectory (rootDirectoryEntry seq0) folderRow.id).1
            seq := seq0 + 1, updated := false, log := [UEvent.rootAdded seq0] }
        | some _ => { db := db, seq := seq0, updated := false, log := [] }
      let st := index.directories.foldl (dirStep folderRow.id) st0
      (if st.updated then st.db.updateSequence deviceId folderRow.id st.seq
        else st.db,
       st.updated, st.log)

/-! ## `src/database.ts`: cluster-config application

`Database.updateClusterConfig` upserts folders and their devices inside one
transaction.  `randomBytes(8)` (node `crypto`) is modelled by the supply
`rand : Nat → List Nat`, consumed once per self-device insertion via the
threaded counter.  The event log records every row insert/update. -/

/-- One logged mutation of an `updateClusterConfig` run. -/
inductive CEvent where
  | folderInserted
  | folderUpdated
  | deviceInserted
  | deviceUpdated
deriving DecidableEq, Repr

/-- The threaded state of an `updateClusterConfig` run. -/
structure CccState where
  db : Db
  randCtr : Nat
  log : List CEvent
deriving DecidableEq, Repr

/-- Processing of one device of a folder (`Database.updateClusterConfig`
inner loop).  A self device gets our configured name before the
comparison; on insert a self device receives a fresh random `indexId`; on
update a changed `indexId` of a non-self device resets
`maxSequenceInternal` to 0. -/
def deviceStepC (selfId : List Nat) (selfName : String) (rand : Nat → List Nat)
    (folderId : Nat) (st : CccState) (device : Device) : CccState :=
  let isSelf := device.id == selfId
  let device := { device with
    name := if isSelf then selfName else device.name }
  match st.db.getDevice folderId device.id with
  | none =>
    { db := st.db.addDevice device folderId isSelf (rand st.randCtr)
      randCtr := st.randCtr + (if isSelf then 1 else 0)
      log := st.log ++ [.deviceInserted] }
  | some row =>
    if deviceRowEqData device row then st
    else
      let maxSequenceInternal :=
        if !isSelf && !(device.indexId == row.indexId) then 0
        else row.maxSequenceInternal
      { st with
        db := st.db.updateDevice device device.id folderId maxSequenceInternal
        log := st.log ++ [.deviceUpdated] }

/-- Processing of one folder (`Database.updateClusterConfig` outer loop).
The source overwrites `folder.path` with `folder.idString` before the
upsert. -/
def folderStepC (selfId : List Nat) (selfName : String) (rand : Nat → List Nat)
    (st : CccState) (folder : Folder) : CccState :=
  let folder := { folder with path := folder.idString }
  match st.db.getFolder folder.idString with
  | none =>
    let add := st.db.addFolder folder
    folder.devices.foldl (deviceStepC selfId selfName rand add.2)
      { db := add.1, randCtr := st.randCtr, log := st.log ++ [.folderInserted] }
  | some row =>
    let st1 : CccState :=
      if folderRowEqData folder row then st
      else
        { st with
          db := st.db.updateFolder folder row.id
          log := st.log ++ [.folderUpdated] }
    folder.devices.foldl (deviceStepC selfId selfName rand row.id) st1

/-- `Database.updateClusterConfig(cluster)` for the device
`(selfId, selfName)`: upsert every folder and its devices.  `ctr` indexes
the random supply. -/
def updateClusterConfig (selfId : List Nat) (selfName : String)
    (rand : Nat → List Nat) (cluster : Cluster) (db : Db) (ctr : Nat) :
    CccState :=
  cluster.folders.foldl (folderStepC selfId selfName rand)
    { db := db, randCtr := ctr, log := [] }

/-! ## `src/database.ts`: paths, read planning and `attributes` -/

/-- `SplitPath` (database.ts). -/
structure SplitPath where
  folder : String
  dir : String
  file : String
deriving DecidableEq, Repr

/-- `Database.splitPath(path)`. -/
def splitPath (path : String) : SplitPath :=
  let pp := posixParse path
  if pp.dir = pp.root then { folder := pp.base, dir := "/", file := "" }
  else
    let dirNoRoot := strDrop pp.dir pp.root.data.length
    match splitOnChar '/' dirNoRoot.data with
    | [] => { folder := "", dir := "/", file := "" }   -- unreachable: JS split is never empty
    | folder :: dirs =>
      if strEndsWithChar path '/' then
        { folder := folder, file := ""
          dir := "/" ++ posixJoin (dirs ++ [pp.base]) }
      else
        { folder := folder, file := pp.base
          dir := "/" ++ (if dirs.length ≠ 0 then posixJoin dirs else "") }

/-- `BlockRequest` (request.ts). -/
structure BlockRequest where
  id : Nat
  fileId : Nat
  folder : String
  name : String
  block : Block
deriving DecidableEq, Repr

/-- `Database.blocksToSatisfyRead(path, position, length)`. -/
def blocksToSatisfyRead (db : Db) (path : String) (position length : Int) :
    List BlockRequest :=
  let sp := splitPath path
  (db.getBlocksOffset sp.folder sp.dir sp.file position length).map fun r =>
    { id := 0, fileId := r.fileId, folder := sp.folder
      name := posixJoin [sp.dir, sp.file]
      block := { size := r.size, offset := r.offset, hash := r.hash,
                 cached := r.cached } }

/-- `Database.attributes(path)`.  `nowMs` models `new Date()` for the
synthetic root entry.  Note the file branch tests
`!(fileRow.flags * FileFlags.deleted)` — a multiplication, not a bitwise
AND — so a file is returned only when its whole flag word is zero. -/
def attributes (nowMs : Int) (db : Db) (path : String) : Option ListEntry :=
  if path = "/" then
    some { type := 1, name := "/", size := 0, permissions := 493,
           modifiedMs := nowMs, modifiedBy := 0 }
  else
    let dirPath := splitPath (path ++ "/")
    if dirPath.folder = "" then none
    else
      let fileHit :=
        if !strEndsWithChar path '/' then
          let filePath := splitPath path
          match db.getFileParentName filePath.folder filePath.dir filePath.file with
          | some fileRow =>
            if fileRow.flags * flagDeleted = 0 then
              some { type := 0, name := fileRow.name, size := fileRow.size,
                     permissions := fileRow.permissions,
                     modifiedMs := fileRow.modifiedS * 1000, modifiedBy := 0 }
            else none
          | none => none
        else none
      match fileHit with
      | some e => some e
      | none =>
        match db.getDirectoryFolderPath dirPath.folder dirPath.dir with
        | some directoryRow =>
          if directoryRow.flags &&& flagDeleted = 0 then
            some { type := 1, name := directoryRow.name, size := 0,
                   permissions := directoryRow.permissions,
                   modifiedMs := directoryRow.modifiedS * 1000, modifiedBy := 0 }
          else none
        | none => none

/-! ## `src/request.ts`: the block request queue

The `Request` class state.  Timers are real-time and not part of the
model (`clearTimeout` is a no-op here; a pending timeout's later firing is
a separate entry point that none of the claims exercise).  Callbacks are
modelled by a `hasCallback` flag on the queued entry plus an event log of
invocations.  SHA-256 (node `crypto`) is a parameter `hashFn`. -/

/-- `QueuedBlock` (request.ts). -/
structure QueuedBlock where
  active : Bool
  retries : Nat
  blockRequest : BlockRequest
  priority : Nat
  hasCallback : Bool
deriving DecidableEq, Repr

/-- The fields of the `Request` class. -/
structure ReqState where
  requests : List QueuedBlock
  id : Nat
  totalActive : Nat
  concurrent : Nat
  retries : Nat
deriving DecidableEq, Repr

/-- Observable actions of the queue: transport sends and callback
invocations. -/
inductive ReqEvent where
  /-- `this.send(request.blockRequest)` from `process`. -/
  | send (br : BlockRequest)
  /-- `request.callback(null, data)` from `received`. -/
  | resolved (br : BlockRequest) (data : List Nat)
deriving DecidableEq, Repr

/-- `Request.incrementId`: wrap to 1 beyond `Number.MAX_SAFE_INTEGER - 1`. -/
def incrementId (id : Nat) : Nat :=
  let id' := id + 1
  if id' > 9007199254740991 - 1 then 1 else id'

/-- Stable insertion into a priority-sorted queue (earlier entries stay
ahead of equal priorities, as V8's stable `Array.prototype.sort` does). -/
def insertByPriority (q : QueuedBlock) : List QueuedBlock → List QueuedBlock
  | [] => [q]
  | x :: xs =>
    if q.priority ≤ x.priority then q :: x :: xs else x :: insertByPriority q xs

/-- `this.requests.sort((a, b) => a.priority - b.priority)` (stable). -/
def sortByPriority : List QueuedBlock → List QueuedBlock
  | [] => []
  | q :: qs => insertByPriority q (sortByPriority qs)

/-- The activation loop of `Request.process`: walk the sorted queue,
give every inactive entry a fresh id, mark it active and send it, stopping
once `totalActive` reaches `concurrent`.  Returns the updated queue, id
counter, active count, and the send events. -/
def processGo (concurrent : Nat) :
    List QueuedBlock → Nat → Nat → List QueuedBlock × Nat × Nat × List ReqEvent
  | [], id, act => ([], id, act, [])
  | q :: qs, id, act =>
    if q.active then
      let r := processGo concurrent qs id act
      (q :: r.1, r.2.1, r.2.2.1, r.2.2.2)
    else
      let id' := incrementId id
      let q' := { q with active := true
                         blockRequest := { q.blockRequest with id := id' } }
      if act + 1 ≥ concurrent then (q' :: qs, id', act + 1, [.send q'.blockRequest])
      else
        let r := processGo concurrent qs id' (act + 1)
        (q' :: r.1, r.2.1, r.2.2.1, .send q'.blockRequest :: r.2.2.2)

/-- `Request.process()`. -/
def ReqState.process (st : ReqState) : ReqState × List ReqEvent :=
  if st.requests.length = 0 ∨ st.totalActive ≥ st.concurrent then (st, [])
  else
    let (reqs, id', act', evs) :=
      processGo st.concurrent (sortByPriority st.requests) st.id st.totalActive
    ({ st with requests := reqs, id := id', totalActive := act' }, evs)

/-- The scan in `Request.add`: the first entry with the same
`(fileId, offset)` gets its priority overwritten and the scan returns;
`none` means no entry matched. -/
def addLoop (br : BlockRequest) (p : Nat) :
    List QueuedBlock → Option (List QueuedBlock)
  | [] => none
  | q :: qs =>
    if q.blockRequest.fileId == br.fileId &&
        q.blockRequest.block.offset == br.block.offset then
      some ({ q with priority := p } :: qs)
    else (addLoop br p qs).map (q :: ·)

/-- `Request.add(blockRequest, priority, callback?)`. -/
def ReqState.add (st : ReqState) (br : BlockRequest) (p : Nat)
    (hasCb : Bool) : ReqState × List ReqEvent :=
  match addLoop br p st.requests with
  | some reqs => ({ st with requests := reqs }, [])
  | none =>
    ReqState.process
      { st with requests := st.requests ++
          [{ active := false, priority := p, retries := 0,
             blockRequest := br, hasCallback := hasCb }] }

/-- The scan in `Request.received`: find the first active entry whose
current request id matches; returns it and the queue with it spliced
out. -/
def receivedLoop (id : Nat) :
    List QueuedBlock → Option (QueuedBlock × List QueuedBlock)
  | [] => none
  | q :: qs =>
    if q.blockRequest.id == id && q.active then some (q, qs)
    else (receivedLoop id qs).map fun (f, rest) => (f, q :: rest)

/-- `Request.received(id, data)`.  The located entry is dequeued, the
active count decremented and `process()` run *before* the hash of the data
is compared with the stored block hash; only a match invokes the callback
and returns the block request. -/
def ReqState.received (st : ReqState) (hashFn : List Nat → List Nat)
    (id : Nat) (data : List Nat) :
    ReqState × List ReqEvent × Option BlockRequest :=
  match receivedLoop id st.requests with
  | none => (st, [], none)
  | some (q, rest) =>
    let pr := ReqState.process
      { st with requests := rest, totalActive := st.totalActive - 1 }
    if hashFn data == q.blockRequest.block.hash then
      (pr.1,
        pr.2 ++ (if q.hasCallback then [.resolved q.blockRequest data] else []),
        some q.blockRequest)
    else
      (pr.1, pr.2, none)

/-! ## `src/communication.ts`: the Index/IndexUpdate reshaping

`Communication.decodeMessage` for `Index`/`IndexUpdate` reshapes the
protobuf-decoded flat file list into directories holding their immediate
children.  The protobuf layer itself (protobufjs plus `bep.proto`) is an
external collaborator; its output — one record per wire file entry, with
64-bit fields already converted (`.toNumber()`, `.toBytesBE()`,
`JSON.stringify(version)`) and protobuf defaults applied — is the
`WireFile` input here. -/

/-- One decoded wire file entry as seen by the reshaping loop. -/
structure WireBlock where
  offset : Int
  size : Int
  hash : List Nat
deriving DecidableEq, Repr

/-- One record of `decodedMessage['files']`. -/
structure WireFile where
  name : String
  type : Nat
  deleted : Bool
  invalid : Bool
  noPermissions : Bool
  permissions : Nat
  modifiedS : Int
  modifiedNs : Int
  modifiedBy : List Nat
  sequence : Nat
  version : String
  size : Int
  symlinkTarget : String
  blockSize : Nat
  blocks : List WireBlock
deriving DecidableEq, Repr

/-- `Communication.combineFlags`. -/
def combineFlags (f : WireFile) : Nat :=
  (if f.deleted then 1 else 0) |||
    ((if f.invalid then 1 else 0) <<< 1) |||
    ((if f.noPermissions then 1 else 0) <<< 2)

/-- A directory entry replaces the first existing entry of the same name
(the placeholder case), otherwise it is pushed at the end. -/
def insertDirectory (d : Directory) : List Directory → List Directory
  | [] => [d]
  | x :: xs => if x.name = d.name then d :: xs else x :: insertDirectory d xs

/-- Attach a file to the first directory named `dirName`; `none` if no such
directory exists yet. -/
def attachFile (dirName : String) (f : File) :
    List Directory → Option (List Directory)
  | [] => none
  | x :: xs =>
    if x.name = dirName then some ({ x with files := x.files ++ [f] } :: xs)
    else (attachFile dirName f xs).map (x :: ·)

/-- Processing of one wire record by the `Index` branch of
`Communication.decodeMessage`: the name gets a leading slash; a directory
entry (type 1, built with an empty `files` list) replaces a same-named
placeholder or is appended; a file/symlink entry is attached to the
directory named `dirname(name)`, with a placeholder directory (empty
metadata, flags 0) created when that directory is not yet known. -/
def decodeIndexStep (idx : Index) (w : WireFile) : Index :=
  let name := "/" ++ w.name
  if w.type = 1 then
    let d : Directory :=
      { name := name, permissions := w.permissions, modifiedS := w.modifiedS,
        modifiedNs := w.modifiedNs, modifiedBy := w.modifiedBy,
        flags := combineFlags w, sequence := w.sequence, version := w.version,
        sync := syncNone, files := [] }
    { idx with directories := insertDirectory d idx.directories }
  else
    let f : File :=
      { name := posixBasename name, size := w.size,
        permissions := w.permissions, modifiedS := w.modifiedS,
        modifiedNs := w.modifiedNs, modifiedBy := w.modifiedBy,
        flags := combineFlags w, sequence := w.sequence, version := w.version,
        symlinkTarget := w.symlinkTarget, blockSize := w.blockSize,
        sync := syncNone
        blocks := w.blocks.map fun b =>
          { offset := b.offset, size := b.size, hash := b.hash, cached := 0 } }
    match attachFile (posixDirname name) f idx.directories with
    | some ds => { idx with directories := ds }
    | none =>
      { idx with directories := idx.directories ++
          [{ name := posixDirname name, permissions := 0, modifiedS := 0,
             modifiedNs := 0, modifiedBy := [], flags := 0, sequence := 0,
             version := "", sync := syncNone, files := [f] }] }

/-- The `Index`/`IndexUpdate` branch of `Communication.decodeMessage`. -/
def decodeIndexRecords (folder : String) (files : List WireFile) : Index :=
  files.foldl decodeIndexStep { folder := folder, directories := [] }

/-! ## `src/Syncthing.ts`: the public `read`

`Syncthing.read(path, position, length)` plans blocks, fetches each one
(from the block cache when the store says `cached = 1`, otherwise through
a user-priority `requests.wait`), and assembles the byte range in offset
order.  The cache (`File.readBlock`) and the request scheduler are
external to this function and enter as the `FetchOracle`: `cachedRead`
models the `File.readBlock` promise (`.error` = the promise rejected,
e.g. the cache file is missing; `.ok []` = hash verification failed) and
`remoteWait` models `requests.wait` (`.error` = rejected with `timeout`
or `removed`).

The `catch (err)` block of the source reads `new Uint8Array(0);` without
`return`, so the function resolves `undefined` on that path — modelled as
`none`.  `new Uint8Array(length)` throws a `RangeError` for a negative
length, and `readData.set` throws when the slice does not fit; both land
in the same `catch`.  The `Except` error value carries the store as of the
throw (mutations already performed persist). -/

/-- The two block data sources of `read`. -/
structure FetchOracle where
  cachedRead : BlockRequest → Except Unit (List Nat)
  remoteWait : BlockRequest → Except Unit (List Nat)

/-- JS `target.set(source, offset)` on typed arrays: throws when the
source does not fit. -/
def jsTypedArraySet (target source : List Nat) (offset : Int) :
    Except Unit (List Nat) :=
  if offset < 0 ∨ offset + source.length > target.length then .error ()
  else .ok ((target.take offset.toNat) ++ source ++
    (target.drop (offset.toNat + source.length)))

/-- Resolve the data for one planned block: a supposedly cached block that
reads back empty is marked stale in the store and re-issued as a remote
request (the `continue` path of the source loop; the re-check of
`cached === 1` then fails because the block was mutated to 2). -/
def readBlockData (oracle : FetchOracle) (db : Db) (req : BlockRequest) :
    Except Db (List Nat × Db) :=
  if req.block.cached = 1 then
    match oracle.cachedRead req with
    | .error _ => .error db
    | .ok bytes =>
      if bytes.length = 0 then
        let req' := { req with block := { req.block with cached := 2 } }
        let db' := db.updateBlockRow req'.block req'.fileId req'.block.offset
        match oracle.remoteWait req' with
        | .error _ => .error db'
        | .ok bytes' => .ok (bytes', db')
      else .ok (bytes, db)
  else
    match oracle.remoteWait req with
    | .error _ => .error db
    | .ok bytes => .ok (bytes, db)

/-- The assembly loop of `read`: for each block, slice
`[max(0, position − offset), min(size, position + length − offset))` out
of the fetched bytes and append it to the output buffer. -/
def readLoop (oracle : FetchOracle) (position length : Int) :
    List BlockRequest → Db → List Nat → Int → Except Db (List Nat × Int × Db)
  | [], db, readData, readOffset => .ok (readData, readOffset, db)
  | req :: rest, db, readData, readOffset =>
    match readBlockData oracle db req with
    | .error db' => .error db'
    | .ok (blockData, db') =>
      let relativeStart := position - req.block.offset
      let start := if relativeStart < 0 then 0 else relativeStart
      let relativeEnd := relativeStart + length
      let stop := if relativeEnd > req.block.size then req.block.size else relativeEnd
      match jsTypedArraySet readData (jsSubarray blockData start stop) readOffset with
      | .error _ => .error db'
      | .ok readData' =>
        readLoop oracle position length rest db' readData' (readOffset + (stop - start))

/-- `Syncthing.read(path, position, length)`: `some bytes` when the
promise resolves a byte array, `none` when it resolves `undefined` (the
missing `return` in the catch block); paired with the resulting store. -/
def read (db : Db) (oracle : FetchOracle) (path : String)
    (position length : Int) : Option (List Nat) × Db :=
  if length > 10485760 then (some [], db)
  else
    let blockRequests := blocksToSatisfyRead db path position length
    if length < 0 then (none, db)   -- new Uint8Array(length) throws
    else
      match readLoop oracle position length blockRequests db
        (List.replicate length.toNat 0) 0 with
      | .error db' => (none, db')
      | .ok (readData, readOffset, db') =>
        (some (jsSubarray readData 0 readOffset), db')

/-! ## Predicates used by the claim statements -/

/-- The trigger condition of the original return-value claim: a directory
or file entry whose *parent directory's* sync is full was added or
modified. -/
def trigOrigB : UEvent → Bool
  | .entryAdded parentSync _ => parentSync == syncFull
  | .entryUpdated parentSync _ _ => parentSync == syncFull
  | _ => false

/-- The trigger condition the code actually implements: an entry inserted
with inherited (parent) sync full, an entry updated whose *own previous
row* sync was full, or any block row inserted/updated/stale-marked. -/
def trigAmendB : UEvent → Bool
  | .entryAdded parentSync _ => parentSync == syncFull
  | .entryUpdated _ rowSync _ => rowSync == syncFull
  | .blockRowMutated => true
  | _ => false

/-- The state invariant of an `updateIndex` run: the `updated` flag equals
"the log holds a trigger event". -/
def UIxInv (st : UIxState) : Prop :=
  st.updated = st.log.any trigAmendB

/-- Well-formedness of the folder table, maintained by sqlite's
autoincrement rowids: ids are pairwise distinct and below the next
rowid. -/
def FoldersWF (db : Db) : Prop :=
  (db.folders.map FolderRow.id).Nodup ∧
    ∀ r ∈ db.folders, r.id < db.nextFolderId

/-- A cluster folder is settled in the store: its folder row carries
exactly the folder's data (with `path` overwritten by `idString`, as
`updateClusterConfig` does) and every of its devices has a row carrying
exactly the device's data. -/
def folderSettled (db : Db) (f : Folder) : Prop :=
  ∃ row, db.getFolder f.idString = some row ∧
    folderRowEqData { f with path := f.idString } row = true ∧
    ∀ d ∈ f.devices, ∃ drow, db.getDevice row.id d.id = some drow ∧
      deviceRowEqData d drow = true

/-- The duplicate test of `Request.add`: same `(fileId, offset)`. -/
def sameBlockReq (br : BlockRequest) (q : QueuedBlock) : Bool :=
  q.blockRequest.fileId == br.fileId &&
    q.blockRequest.block.offset == br.block.offset

/-- The lookup test of `Request.received`: active entry with the given
request id. -/
def activeWithId (id : Nat) (q : QueuedBlock) : Bool :=
  q.blockRequest.id == id && q.active

/-! ## Concrete instances used by the claim theorems -/

/-- A sample self device id. -/
def devIdW : List Nat := [7]

/-- A folder row for folder "f". -/
def rowFolderF : FolderRow :=
  { id := 1, idString := "f", label := "", path := "f", flags := 0 }

/-- A self device row for folder "f" with `maxSequenceInternal = 5`. -/
def rowDevSelf : DeviceRow :=
  { id := devIdW, folderId := 1, name := "me", addresses := "",
    maxSequence := 0, maxSequenceInternal := 5,
    indexId := [1, 2, 3, 4, 5, 6, 7, 8] }

/-- The root directory row of folder "f". -/
def rowDirRoot : DirectoryRow :=
  { id := 1, folderId := 1, name := "/", permissions := 493, modifiedS := 0,
    modifiedNs := 0, modifiedBy := [], flags := 0, sequence := 0,
    version := "", sync := 0 }

/-- A file row "a" under the root of folder "f", with a given flag word. -/
def rowFileA (flags : Nat) : FileRow :=
  { id := 1, name := "a", directoryId := 1, size := 4, permissions := 420,
    modifiedS := 7, modifiedNs := 0, modifiedBy := [], flags := flags,
    sequence := 1, blockSize := 4, version := "", symlinkTarget := "",
    sync := 0 }

/-- Store for the `attributes` claim: folder "f", root directory, file "a"
with the given flags. -/
def dbC10 (flags : Nat) : Db :=
  { folders := [rowFolderF], devices := [], directories := [rowDirRoot],
    files := [rowFileA flags], blocks := [], nextFolderId := 2,
    nextDirectoryId := 2, nextFileId := 2 }

/-- Store for the sequence claim: folder "f" and its self device, but no
directory rows yet. -/
def dbC4 : Db :=
  { folders := [rowFolderF], devices := [rowDevSelf], directories := [],
    files := [], blocks := [], nextFolderId := 2, nextDirectoryId := 1,
    nextFileId := 1 }

/-- A directory entry "/a" with no files (sync none). -/
def dirA : Directory :=
  { name := "/a", permissions := 493, modifiedS := 1, modifiedNs := 0,
    modifiedBy := [], flags := 0, sequence := 0, version := "v", sync := 0,
    files := [] }

/-- Index message carrying only the directory "/a". -/
def idxC4 : Index := { folder := "f", directories := [dirA] }

/-- Store for the `updateIndex` return-value claim: folder "f", self
device, root directory present. -/
def dbC3 : Db :=
  { folders := [rowFolderF], devices := [rowDevSelf],
    directories := [rowDirRoot], files := [], blocks := [],
    nextFolderId := 2, nextDirectoryId := 2, nextFileId := 1 }

/-- A file entry "b" with one block (sync none). -/
def fileB : File :=
  { name := "b", size := 4, permissions := 420, modifiedS := 1,
    modifiedNs := 0, modifiedBy := [], flags := 0, sequence := 0,
    blockSize := 4, version := "v", symlinkTarget := "", sync := 0,
    blocks := [{ offset := 0, size := 4, hash := [9], cached := 0 }] }

/-- Index message carrying "/a" with the file "b" under it. -/
def idxC3 : Index := { folder := "f", directories := [{ dirA with files := [fileB] }] }

/-- Store for the `read` claim: folder "f", root directory, file "a" with
one uncached block of 4 bytes. -/
def dbC1 : Db :=
  { folders := [rowFolderF], devices := [], directories := [rowDirRoot],
    files := [rowFileA 0],
    blocks := [{ fileId := 1, offset := 0, size := 4, hash := [9], cached := 0 }],
    nextFolderId := 2, nextDirectoryId := 2, nextFileId := 2 }

/-- An oracle whose every fetch rejects (cache file missing, remote
request timed out). -/
def failOracle : FetchOracle :=
  { cachedRead := fun _ => .error (), remoteWait := fun _ => .error () }

/-- A relay `Response` frame with the given code and an empty message. -/
def relayResponseFrame (code : Nat) : List Nat :=
  [0x9E, 0x79, 0xBC, 0x40, 0, 0, 0, 4, 0, 0, 0, 8, 0, 0, 0, code, 0, 0, 0, 0]

/-- A wire file record `a/b.txt` (type 0) with one block. -/
def wireFileRec : WireFile :=
  { name := "a/b.txt", type := 0, deleted := false, invalid := false,
    noPermissions := false, permissions := 420, modifiedS := 1,
    modifiedNs := 0, modifiedBy := [0, 0, 0, 0, 0, 0, 0, 1], sequence := 10,
    version := "v", size := 4, symlinkTarget := "", blockSize := 4,
    blocks := [{ offset := 0, size := 4, hash := [9] }] }

/-- A wire directory record `a` (type 1). -/
def wireDirRec : WireFile :=
  { name := "a", type := 1, deleted := false, invalid := false,
    noPermissions := false, permissions := 493, modifiedS := 2,
    modifiedNs := 0, modifiedBy := [0, 0, 0, 0, 0, 0, 0, 1], sequence := 11,
    version := "w", size := 0, symlinkTarget := "", blockSize := 0,
    blocks := [] }

/-- A block request for `(fileId, offset)` with current request id `id`. -/
def brq (fileId : Nat) (offset : Int) (id : Nat) : BlockRequest :=
  { id := id, fileId := fileId, folder := "f", name := "/a",
    block := { offset := offset, size := 4, hash := [1, 2], cached := 0 } }

/-- A queued entry around `br`. -/
def qb (br : BlockRequest) (active : Bool) (priority : Nat) : QueuedBlock :=
  { active := active, retries := 0, blockRequest := br, priority := priority,
    hasCallback := true }

/-- Queue state with one active request (id 7, hash `[1,2]`). -/
def stC6 : ReqState :=
  { requests := [qb (brq 1 0 7) true 1], id := 7, totalActive := 1,
    concurrent := 5, retries := 2 }

/-- A hash function that never matches `[1,2]`. -/
def badHash : List Nat → List Nat := fun _ => [0]

/-- A hash function that always yields `[1,2]` (the stored hash of
`brq`). -/
def goodHashW : List Nat → List Nat := fun _ => [1, 2]

/-- Queue state with one inactive user-priority request for (1, 0). -/
def stC7 : ReqState :=
  { requests := [qb (brq 1 0 0) false 1], id := 1, totalActive := 0,
    concurrent := 5, retries := 2 }

/-- A random-bytes supply for `updateClusterConfig`. -/
def randW : Nat → List Nat := fun _ => [9, 9, 9, 9, 9, 9, 9, 9]

/-- A cluster config whose only device is the self device, carrying an
`indexId` different from the randomly generated one. -/
def xC9 : Cluster :=
  { folders := [{ idString := "f", label := "L", path := "", flags := 0
                  devices := [{ id := devIdW, folderIdString := "f", name := "ext"
                                addresses := "tcp://x", maxSequence := 3
                                indexId := [0, 0, 0, 0, 0, 0, 0, 0] }] }] }

/-- A cluster config with one peer (non-self) device. -/
def yC9 : Cluster :=
  { folders := [{ idString := "f", label := "L", path := "", flags := 0
                  devices := [{ id := [8], folderIdString := "f", name := "peer"
                                addresses := "", maxSequence := 3
                                indexId := [1, 1, 1, 1, 1, 1, 1, 1] }] }] }

/-- The empty store. -/
def dbEmpty : Db :=
  { folders := [], devices := [], directories := [], files := [],
    blocks := [], nextFolderId := 1, nextDirectoryId := 1, nextFileId := 1 }

end SyncthingTS

namespace SyncthingTS

/-! # Claim theorems -/

/-- C1: `read` rejects `length > 10 MiB` with an empty array, but the
claim's "otherwise the call resolves to a byte array … and never to a
non-array value" fails on the code: the `catch` block's `new
Uint8Array(0);` lacks a `return`, so when a block fetch rejects (here: a
remote request timeout for the one planned block of `/f/a`), the promise
resolves `undefined` (`none`). -/
theorem read_resolves_undefined_on_fetch_failure :
    (read dbC1 failOracle "/f/a" 0 10485761).1 = some [] ∧
    (read dbC1 failOracle "/f/a" 0 100).1 = none := by
  decide

/-- C2: on the group of thirteen `'A'`s the weighted sum is 0, so the
claim requires the check character of index `(32 − 0 % 32) % 32 = 0`,
i.e. `'A'`; but `calculateCheckDigit` computes the index without the outer
modulus and indexes the alphabet at 32, returning JS `undefined`
(`none`). -/
theorem calculateCheckDigit_undefined_on_zero_sum :
    checkDigitSumGo (List.replicate 13 'A') 0 1 = .ok 0 ∧
    calculateCheckDigit (List.replicate 13 'A') = .ok none ∧
    checkAlphabet.get? ((32 - 0 % 32) % 32) = some 'A' :=
  ⟨rfl, rfl, rfl⟩

/-- C4: a committed `updateIndex` transaction (no throw, returns `false`)
that inserted the directory "/a" with sequence 6 while the stored
`device.maxSequenceInternal` stays 5 — `updateSequence` only runs when the
`updated` flag is set, so the invariant `maxSequenceInternal ≥ max
assigned sequence` fails. -/
theorem updateIndex_sequence_exceeds_stored_max :
    (updateIndex devIdW dbC4 idxC4).2.1 = false ∧
    ((updateIndex devIdW dbC4 idxC4).1.getDirectory 1 "/a").map
      DirectoryRow.sequence = some 6 ∧
    ((updateIndex devIdW dbC4 idxC4).1.getDevice 1 devIdW).map
      DeviceRow.maxSequenceInternal = some 5 := by
  decide

/-- C5 counterexample: a relay `Response` (type 4) with code 2
(`ResponseAlreadyConnected`) — which differs from `ResponseSuccess` (3) —
is *not* fatal: `connect` only aborts on code 1, so the session socket is
upgraded to TLS. -/
theorem joinSession_code_two_upgrades :
    (relayProtocolDecodeMessage (relayResponseFrame 2)).type = 4 ∧
    (relayProtocolDecodeMessage (relayResponseFrame 2)).message =
      some (.response { code := 2, messageLength := 0, message := [] }) ∧
    joinSessionOutcome (relayProtocolDecodeMessage (relayResponseFrame 2)) =
      .upgraded := by
  decide

/-- C5 amended: after the JoinSessionRequest, a decoded `Response` is
fatal (socket destroyed, no TLS upgrade) exactly when its code is
`ResponseNotFound` (1); every other code — including
`ResponseAlreadyConnected` (2) — proceeds to the TLS upgrade of the relay
session socket. -/
theorem joinSession_fatal_only_not_found (reply : RelayMessage)
    (r : ResponseMessage) (h1 : reply.type = 4)
    (h2 : reply.message = some (.response r)) :
    joinSessionOutcome reply =
      (if r.code = 1 then .notFound else .upgraded) := by
  unfold joinSessionOutcome
  rw [h2, h1]
  simp

/-- Witness for `joinSession_fatal_only_not_found` at the concrete
`Response` frame with code 1. -/
theorem joinSession_fatal_only_not_found_witness :
    joinSessionOutcome (relayProtocolDecodeMessage (relayResponseFrame 1)) =
      (if (1 : Nat) = 1 then JoinOutcome.notFound else JoinOutcome.upgraded) :=
  joinSession_fatal_only_not_found
    (relayProtocolDecodeMessage (relayResponseFrame 1))
    { code := 1, messageLength := 0, message := [] } (by decide) (by decide)

/-- C8: in a message carrying the file `a/b.txt` before its directory `a`,
the directory entry (decoded with an empty files list) *replaces* the
placeholder together with the files attached to it, so the file record
does not appear in the resulting directory "/a"; with the records in the
opposite order the file does appear. -/
theorem decodeIndex_directory_replaces_placeholder_dropping_files :
    (decodeIndexRecords "f" [wireFileRec, wireDirRec]).directories.map
      (fun d => (d.name, d.files.map File.name)) = [("/a", [])] ∧
    (decodeIndexRecords "f" [wireDirRec, wireFileRec]).directories.map
      (fun d => (d.name, d.files.map File.name)) = [("/a", ["b.txt"])] := by
  decide

/-- C10: `attributes` uses `fileRow.flags * FileFlags.deleted` (a
multiplication by 1) instead of a bitwise AND, so a stored file whose
flags set only the `invalid` bit (2) is suppressed (`none`) even though
its `deleted` bit is clear (`2 &&& 1 = 0`); a flags-0 file is returned and
a deleted one omitted. -/
theorem attributes_invalid_flag_suppresses_file :
    attributes 0 (dbC10 flagInvalid) "/f/a" = none ∧
    (attributes 0 (dbC10 0) "/f/a").isSome = true ∧
    attributes 0 (dbC10 flagDeleted) "/f/a" = none ∧
    flagInvalid &&& flagDeleted = 0 := by
  decide

/-! ## Queue lemmas for the `add` and `received` claims -/

/-- The `add` scan on a queue whose first match is `q`: exactly `q`'s
priority is overwritten. -/
theorem addLoop_split (br : BlockRequest) (p : Nat) (q : QueuedBlock)
    (post : List QueuedBlock) (hq : sameBlockReq br q = true) :
    ∀ pre : List QueuedBlock, (∀ x ∈ pre, sameBlockReq br x = false) →
      addLoop br p (pre ++ q :: post) =
        some (pre ++ { q with priority := p } :: post) := by
  intro pre
  induction pre with
  | nil =>
    intro _
    simp only [List.nil_append]
    unfold addLoop
    simp only [sameBlockReq] at hq
    simp [hq]
  | cons x xs ih =>
    intro hpre
    have hx : sameBlockReq br x = false := hpre x (by simp)
    simp only [sameBlockReq] at hx
    simp only [List.cons_append]
    unfold addLoop
    simp [hx, ih (fun y hy => hpre y (by simp [hy]))]

/-- C7 counterexample: a queued user-priority (1) request for `(1, 0)`;
`add` of the same `(fileId, offset)` with priority 0 leaves a single entry
whose priority became 0, not `max 1 0 = 1` — the priority decreased. -/
theorem add_lowers_priority :
    (stC7.add (brq 1 0 0) 0 false).1.requests.map QueuedBlock.priority = [0] ∧
    (stC7.add (brq 1 0 0) 0 false).1.requests.length = 1 ∧
    Nat.max 1 0 = 1 := by
  decide

/-- C7 amended: when the queue already holds a request with the same
`(fileId, offset)`, `add` enqueues nothing, sends nothing and changes no
other entry; the first matching entry's priority is *overwritten* with the
new call's priority (which may lower it). -/
theorem add_existing_overwrites_priority (st : ReqState) (br : BlockRequest)
    (p : Nat) (hasCb : Bool) (pre post : List QueuedBlock) (q : QueuedBlock)
    (hsplit : st.requests = pre ++ q :: post)
    (hpre : ∀ x ∈ pre, sameBlockReq br x = false)
    (hq : sameBlockReq br q = true) :
    (st.add br p hasCb).1.requests = pre ++ { q with priority := p } :: post ∧
    (st.add br p hasCb).1.requests.length = st.requests.length ∧
    (st.add br p hasCb).2 = [] ∧
    (st.add br p hasCb).1.totalActive = st.totalActive := by
  have h := addLoop_split br p q post hq pre hpre
  unfold ReqState.add
  rw [hsplit, h]
  simp

/-- Witness for `add_existing_overwrites_priority` at the concrete queue
`stC7`. -/
theorem add_existing_overwrites_priority_witness :
    (stC7.add (brq 1 0 0) 0 false).1.requests =
      [] ++ { qb (brq 1 0 0) false 1 with priority := 0 } :: [] ∧
    (stC7.add (brq 1 0 0) 0 false).1.requests.length = stC7.requests.length ∧
    (stC7.add (brq 1 0 0) 0 false).2 = [] ∧
    (stC7.add (brq 1 0 0) 0 false).1.totalActive = stC7.totalActive :=
  add_existing_overwrites_priority stC7 (brq 1 0 0) 0 false [] []
    (qb (brq 1 0 0) false 1) rfl (by decide) (by decide)

/-- `insertByPriority` grows the queue by one. -/
theorem insertByPriority_length (q : QueuedBlock) :
    ∀ l : List QueuedBlock, (insertByPriority q l).length = l.length + 1 := by
  intro l
  induction l with
  | nil => rfl
  | cons x xs ih =>
    unfold insertByPriority
    split
    · simp
    · simp [ih]

/-- The stable sort preserves the queue length. -/
theorem sortByPriority_length :
    ∀ l : List QueuedBlock, (sortByPriority l).length = l.length := by
  intro l
  induction l with
  | nil => rfl
  | cons q qs ih =>
    unfold sortByPriority
    simp [insertByPriority_length, ih]

/-- The activation loop preserves the queue length. -/
theorem processGo_length (c : Nat) :
    ∀ (l : List QueuedBlock) (id act : Nat),
      (processGo c l id act).1.length = l.length := by
  intro l
  induction l with
  | nil => intro id act; rfl
  | cons q qs ih =>
    intro id act
    unfold processGo
    split
    · simp [ih]
    · split
      · simp
      · simp [ih]

/-- `process` preserves the queue length. -/
theorem process_requests_length (st : ReqState) :
    (ReqState.process st).1.requests.length = st.requests.length := by
  unfold ReqState.process
  split
  · rfl
  · simp [processGo_length, sortByPriority_length]

/-- The activation loop only emits transport sends. -/
theorem processGo_events_send (c : Nat) :
    ∀ (l : List QueuedBlock) (id act : Nat) (e : ReqEvent),
      e ∈ (processGo c l id act).2.2.2 → ∃ br, e = .send br := by
  intro l
  induction l with
  | nil => intro id act e h; cases h
  | cons q qs ih =>
    intro id act e h
    unfold processGo at h
    split at h
    · exact ih _ _ e h
    · split at h
      · simp only [List.mem_singleton] at h
        exact ⟨_, h⟩
      · simp only [List.mem_cons] at h
        rcases h with h | h
        · exact ⟨_, h⟩
        · exact ih _ _ e h

/-- `process` only emits transport sends (never callback invocations). -/
theorem process_events_send (st : ReqState) (e : ReqEvent) :
    e ∈ (ReqState.process st).2 → ∃ br, e = .send br := by
  unfold ReqState.process
  split
  · intro h; cases h
  · intro h; exact processGo_events_send _ _ _ _ e h

/-- The `received` scan on a queue whose first active match is `q`:
`q` is spliced out. -/
theorem receivedLoop_split (id : Nat) (q : QueuedBlock)
    (post : List QueuedBlock) (hq : activeWithId id q = true) :
    ∀ pre : List QueuedBlock, (∀ x ∈ pre, activeWithId id x = false) →
      receivedLoop id (pre ++ q :: post) = some (q, pre ++ post) := by
  intro pre
  induction pre with
  | nil =>
    intro _
    simp only [List.nil_append]
    unfold receivedLoop
    simp only [activeWithId] at hq
    simp [hq]
  | cons x xs ih =>
    intro hpre
    have hx : activeWithId id x = false := hpre x (by simp)
    simp only [activeWithId] at hx
    simp only [List.cons_append]
    unfold receivedLoop
    simp [hx, ih (fun y hy => hpre y (by simp [hy]))]

/-- C6 counterexample: a queue holding one active request (id 7, stored
hash `[1,2]`) receiving a response whose hash does not match: the request
is dequeued anyway (the queue is empty afterwards — it does *not* remain
queued for the timeout path), no callback fires, and `null` is
returned. -/
theorem received_mismatch_not_requeued :
    (stC6.received badHash 7 [5]).1.requests = [] ∧
    (stC6.received badHash 7 [5]).2.1 = [] ∧
    (stC6.received badHash 7 [5]).2.2 = none := by
  decide

/-- C6 amended: `received(id, bytes)` on a queue whose first active match
is `q` always dequeues `q` (the queue shrinks by one, on hash match *and*
mismatch alike — the source dequeues before verifying); the block request
is returned exactly on hash match; and the callback fires with the bytes
iff the hash matches and a callback was registered (everything else the
call emits is a transport send from rescheduling). -/
theorem received_dequeues_and_resolves_only_on_match (st : ReqState)
    (hashFn : List Nat → List Nat) (id : Nat) (data : List Nat)
    (pre post : List QueuedBlock) (q : QueuedBlock)
    (hsplit : st.requests = pre ++ q :: post)
    (hpre : ∀ x ∈ pre, activeWithId id x = false)
    (hq : activeWithId id q = true) :
    (st.received hashFn id data).1.requests.length + 1 = st.requests.length ∧
    (st.received hashFn id data).2.2 =
      (if hashFn data == q.blockRequest.block.hash then some q.blockRequest
        else none) ∧
    (ReqEvent.resolved q.blockRequest data ∈ (st.received hashFn id data).2.1 ↔
      ((hashFn data == q.blockRequest.block.hash) = true ∧
        q.hasCallback = true)) := by
  have hloop := receivedLoop_split id q post hq pre hpre
  have hres : st.received hashFn id data =
      (if hashFn data == q.blockRequest.block.hash then
        ((ReqState.process { st with
            requests := pre ++ post
            totalActive := st.totalActive - 1 }).1,
         (ReqState.process { st with
            requests := pre ++ post
            totalActive := st.totalActive - 1 }).2 ++
           (if q.hasCallback then [ReqEvent.resolved q.blockRequest data]
             else []),
         some q.blockRequest)
      else
        ((ReqState.process { st with
            requests := pre ++ post
            totalActive := st.totalActive - 1 }).1,
         (ReqState.process { st with
            requests := pre ++ post
            totalActive := st.totalActive - 1 }).2,
         none)) := by
    unfold ReqState.received
    rw [hsplit, hloop]
  have hlen : (ReqState.process { st with
      requests := pre ++ post
      totalActive := st.totalActive - 1 }).1.requests.length + 1 =
        st.requests.length := by
    rw [process_requests_length, hsplit]
    simp
    omega
  have hsend := fun e =>
    process_events_send { st with
      requests := pre ++ post
      totalActive := st.totalActive - 1 } e
  rw [hres]
  split
  next hmatch =>
    refine ⟨hlen, by simp, ?_⟩
    constructor
    · intro hmem
      simp only [List.mem_append] at hmem
      rcases hmem with hmem | hmem
      · rcases hsend _ hmem with ⟨br, hbr⟩
        cases hbr
      · refine ⟨hmatch, ?_⟩
        by_cases hcb : q.hasCallback
        · exact hcb
        · simp [hcb] at hmem
    · rintro ⟨-, hcb⟩
      simp [hcb]
  next hmatch =>
    refine ⟨hlen, by simp, ?_⟩
    constructor
    · intro hmem
      rcases hsend _ hmem with ⟨br, hbr⟩
      cases hbr
    · rintro ⟨hc, -⟩
      exact absurd hc (by simpa using hmatch)

/-! ## `updateIndex` return-value lemmas -/

/-- A fold preserves any invariant its step preserves. -/
theorem foldlPreserves {α β : Type} (f : β → α → β) (P : β → Prop)
    (hf : ∀ b a, P b → P (f b a)) :
    ∀ (l : List α) (b : β), P b → P (l.foldl f b) := by
  intro l
  induction l with
  | nil => intro b hb; exact hb
  | cons a as ih => intro b hb; exact ih (f b a) (hf b a hb)

/-- The trailing reconciliation flag equals "some logged block mutation
sets `updated`". -/
theorem updateBlocksTail_flag (fileId : Nat) :
    ∀ (rows : List BlockRow) (db : Db),
      (updateBlocksTail fileId rows db).2.1 =
        (updateBlocksTail fileId rows db).2.2.any trigAmendB := by
  intro rows
  induction rows with
  | nil => intro db; rfl
  | cons row rs ih =>
    intro db
    unfold updateBlocksTail
    split
    · simp [trigAmendB]
    · simp [trigAmendB, ih]

/-- The paired reconciliation flag equals "some logged block mutation sets
`updated`". -/
theorem updateBlocksGo_flag (fileId : Nat) :
    ∀ (blocks : List Block) (rows : List BlockRow) (db : Db),
      (updateBlocksGo fileId blocks rows db).2.1 =
        (updateBlocksGo fileId blocks rows db).2.2.any trigAmendB := by
  intro blocks
  induction blocks with
  | nil => intro rows db; exact updateBlocksTail_flag fileId rows db
  | cons b bs ih =>
    intro rows db
    cases rows with
    | nil =>
      unfold updateBlocksGo
      simp [trigAmendB]
    | cons row rs =>
      unfold updateBlocksGo
      split
      · exact ih rs db
      · simp [trigAmendB]

/-- `updateBlocks` returns `true` exactly when its log holds a trigger
event. -/
theorem updateBlocks_flag (fileId : Nat) (blocks : List Block) (db : Db) :
    (updateBlocks fileId blocks db).2.1 =
      (updateBlocks fileId blocks db).2.2.any trigAmendB := by
  unfold updateBlocks
  exact updateBlocksGo_flag fileId blocks (db.getBlocks fileId) db

/-- `fileStep` preserves the invariant. -/
theorem fileStep_inv (dirId sync : Nat) (st : UIxState) (f : File)
    (h : UIxInv st) : UIxInv (fileStep dirId sync st f) := by
  unfold UIxInv at h ⊢
  unfold fileStep
  split
  · -- getFile returned none
    split
    · exact h
    · simp only []
      rw [updateBlocks_flag]
      simp [h, trigAmendB, Bool.or_assoc]
  · -- getFile returned a row
    split
    · simp only []
      rw [updateBlocks_flag]
      simp [h]
    · simp only []
      rw [updateBlocks_flag]
      simp [h, trigAmendB, Bool.or_assoc]

/-- `dirStepCore` preserves the invariant. -/
theorem dirStepCore_inv (folderId sync : Nat) (st : UIxState) (d : Directory)
    (h : UIxInv st) : UIxInv (dirStepCore folderId sync st d) := by
  unfold dirStepCore
  split
  · -- getDirectory returned none
    split
    · exact h
    · refine foldlPreserves _ UIxInv (fun b a hb => fileStep_inv _ _ b a hb)
        d.files _ ?_
      unfold UIxInv at h ⊢
      simp [h, trigAmendB, Bool.or_assoc]
  · -- getDirectory returned a row
    split
    · exact foldlPreserves _ UIxInv (fun b a hb => fileStep_inv _ _ b a hb)
        d.files _ h
    · refine foldlPreserves _ UIxInv (fun b a hb => fileStep_inv _ _ b a hb)
        d.files _ ?_
      unfold UIxInv at h ⊢
      simp [h, trigAmendB, Bool.or_assoc]

/-- `dirStep` preserves the invariant. -/
theorem dirStep_inv (folderId : Nat) (st : UIxState) (d : Directory)
    (h : UIxInv st) : UIxInv (dirStep folderId st d) :=
  dirStepCore_inv folderId (dirSync folderId st.db d) st d h

/-- C3 counterexample: an index message adding `/a` and the file `b`
(with one block) under a parent whose sync is `none`: `updateIndex`
returns `true` (the block insertion sets the flag) although no directory
or file entry with a full-sync parent was added or modified — every
logged entry event has parent sync 0. -/
theorem updateIndex_true_without_full_parent :
    (updateIndex devIdW dbC3 idxC3).2.1 = true ∧
    (updateIndex devIdW dbC3 idxC3).2.2.any trigOrigB = false := by
  decide

/-- C3 amended: `updateIndex` returns `true` iff the run logged a trigger:
an entry inserted whose inherited (parent) sync was full, an entry updated
whose previous row's own sync was full, or a block row inserted, updated
or stale-marked. -/
theorem updateIndex_updated_eq_any_trigger (deviceId : List Nat) (db : Db)
    (index : Index) :
    (updateIndex deviceId db index).2.1 =
      (updateIndex deviceId db index).2.2.any trigAmendB := by
  unfold updateIndex
  split
  next => rfl
  next folderRow _ =>
    split
    next => rfl
    next deviceRow _ =>
      refine foldlPreserves (dirStep folderRow.id) UIxInv
        (fun b a hb => dirStep_inv folderRow.id b a hb) index.directories
        _ ?_
      cases db.getDirectory folderRow.id "/" with
      | none => simp [UIxInv, trigAmendB]
      | some r => simp [UIxInv]

/-- Witness for `received_dequeues_and_resolves_only_on_match` at the
concrete queue `stC6` with a matching hash. -/
theorem received_dequeues_and_resolves_only_on_match_witness :
    (stC6.received goodHashW 7 [5]).1.requests.length + 1 =
      stC6.requests.length ∧
    (stC6.received goodHashW 7 [5]).2.2 =
      (if goodHashW [5] == (qb (brq 1 0 7) true 1).blockRequest.block.hash
        then some (qb (brq 1 0 7) true 1).blockRequest else none) ∧
    (ReqEvent.resolved (qb (brq 1 0 7) true 1).blockRequest [5] ∈
        (stC6.received goodHashW 7 [5]).2.1 ↔
      ((goodHashW [5] == (qb (brq 1 0 7) true 1).blockRequest.block.hash) = true ∧
        (qb (brq 1 0 7) true 1).hasCallback = true)) :=
  received_dequeues_and_resolves_only_on_match stC6 goodHashW 7 [5] [] []
    (qb (brq 1 0 7) true 1) rfl (by decide) (by decide)

/-! ## `updateClusterConfig` lemmas -/

/-- `find?` keeps its result under appending. -/
theorem find?_append_some {α : Type} (p : α → Bool) :
    ∀ (l₁ l₂ : List α) (a : α),
      l₁.find? p = some a → (l₁ ++ l₂).find? p = some a := by
  intro l₁
  induction l₁ with
  | nil => intro l₂ a h; cases h
  | cons x xs ih =>
    intro l₂ a h
    rw [List.cons_append]
    cases hpx : p x with
    | true =>
      rw [List.find?_cons_of_pos _ hpx] at h
      rw [List.find?_cons_of_pos _ hpx]
      exact h
    | false =>
      rw [List.find?_cons_of_neg _ (by simp [hpx])] at h
      rw [List.find?_cons_of_neg _ (by simp [hpx])]
      exact ih l₂ a h

/-- An unsuccessful `find?` defers to the appended tail. -/
theorem find?_append_none {α : Type} (p : α → Bool) :
    ∀ (l₁ l₂ : List α),
      l₁.find? p = none → (l₁ ++ l₂).find? p = l₂.find? p := by
  intro l₁
  induction l₁ with
  | nil => intro l₂ _; rfl
  | cons x xs ih =>
    intro l₂ h
    rw [List.cons_append]
    cases hpx : p x with
    | true => rw [List.find?_cons_of_pos _ hpx] at h; cases h
    | false =>
      rw [List.find?_cons_of_neg _ (by simp [hpx])] at h
      rw [List.find?_cons_of_neg _ (by simp [hpx])]
      exact ih l₂ h

/-- Mapping a row transformation that creates no new matches moves the
first match through the map. -/
theorem find?_map_first {α : Type} (p : α → Bool) (g : α → α) :
    ∀ (l : List α) (a : α), l.find? p = some a → p (g a) = true →
      (∀ x ∈ l, p x = false → p (g x) = false) →
      (l.map g).find? p = some (g a) := by
  intro l
  induction l with
  | nil => intro a h _ _; cases h
  | cons x xs ih =>
    intro a h hga hkeep
    rw [List.map_cons]
    cases hpx : p x with
    | true =>
      rw [List.find?_cons_of_pos _ hpx] at h
      injection h with h
      subst h
      rw [List.find?_cons_of_pos _ hga]
    | false =>
      rw [List.find?_cons_of_neg _ (by simp [hpx])] at h
      have hgx := hkeep x (by simp) hpx
      rw [List.find?_cons_of_neg _ (by simp [hgx])]
      exact ih a h hga (fun y hy hpy => hkeep y (by simp [hy]) hpy)

/-- C9 counterexample: applying the concrete cluster config `xC9` (whose
self-device `indexId` differs from the freshly generated random one) twice
to the empty store: the second call updates the self device row
(overwriting the stored random `indexId`), so the store after the second
call differs from the store after the first. -/
theorem updateClusterConfig_second_call_mutates :
    (updateClusterConfig devIdW "me" randW xC9
      (updateClusterConfig devIdW "me" randW xC9 dbEmpty 0).db
      (updateClusterConfig devIdW "me" randW xC9 dbEmpty 0).randCtr).log =
      [CEvent.deviceUpdated] ∧
    (updateClusterConfig devIdW "me" randW xC9
      (updateClusterConfig devIdW "me" randW xC9 dbEmpty 0).db
      (updateClusterConfig devIdW "me" randW xC9 dbEmpty 0).randCtr).db ≠
      (updateClusterConfig devIdW "me" randW xC9 dbEmpty 0).db := by
  decide

/-- `deviceStepC` only touches the device table. -/
theorem deviceStepC_frame (selfId : List Nat) (selfName : String)
    (rand : Nat → List Nat) (folderId : Nat) (st : CccState) (d : Device) :
    (deviceStepC selfId selfName rand folderId st d).db.folders =
      st.db.folders ∧
    (deviceStepC selfId selfName rand folderId st d).db.nextFolderId =
      st.db.nextFolderId := by
  unfold deviceStepC
  constructor
  all_goals
    dsimp only
    repeat' split
    all_goals rfl

/-- A device fold only touches the device table. -/
theorem foldDevices_frame (selfId : List Nat) (selfName : String)
    (rand : Nat → List Nat) (folderId : Nat) :
    ∀ (ds : List Device) (st : CccState),
      (ds.foldl (deviceStepC selfId selfName rand folderId) st).db.folders =
        st.db.folders ∧
      (ds.foldl (deviceStepC selfId selfName rand folderId) st).db.nextFolderId =
        st.db.nextFolderId := by
  intro ds
  induction ds with
  | nil => intro st; exact ⟨rfl, rfl⟩
  | cons d rest ih =>
    intro st
    rw [List.foldl_cons]
    rcases ih (deviceStepC selfId selfName rand folderId st d) with ⟨h1, h2⟩
    rcases deviceStepC_frame selfId selfName rand folderId st d with ⟨h3, h4⟩
    exact ⟨h1.trans h3, h2.trans h4⟩

/-- Appending a device row keeps any earlier first match. -/
theorem addDevice_getDevice_keep (db : Db) (dv : Device) (folderId : Nat)
    (isSelf : Bool) (randIndexId : List Nat) (fid0 : Nat) (id0 : List Nat)
    (drow : DeviceRow) (h : db.getDevice fid0 id0 = some drow) :
    (db.addDevice dv folderId isSelf randIndexId).getDevice fid0 id0 =
      some drow := by
  unfold Db.getDevice at h ⊢
  unfold Db.addDevice
  exact find?_append_some _ _ _ _ h

/-- Inserting a missing device makes it findable with exactly the
inserted column values. -/
theorem addDevice_getDevice_new (db : Db) (dv : Device) (folderId : Nat)
    (isSelf : Bool) (randIndexId : List Nat)
    (h : db.getDevice folderId dv.id = none) :
    (db.addDevice dv folderId isSelf randIndexId).getDevice folderId dv.id =
      some { id := dv.id, folderId := folderId, name := dv.name,
             addresses := dv.addresses, maxSequence := dv.maxSequence,
             maxSequenceInternal := 0,
             indexId := if isSelf then randIndexId else dv.indexId } := by
  unfold Db.getDevice at h ⊢
  unfold Db.addDevice
  rw [find?_append_none _ _ _ h]
  rw [List.find?_cons_of_pos _ (by simp)]

/-- `updateDevice` keyed on a different `(id, folderId)` leaves a found
row unchanged. -/
theorem updateDevice_getDevice_other (db : Db) (dv : Device) (id : List Nat)
    (folderId msi : Nat) (fid0 : Nat) (id0 : List Nat) (drow : DeviceRow)
    (h : db.getDevice fid0 id0 = some drow)
    (hne : id ≠ id0 ∨ folderId ≠ fid0) :
    (db.updateDevice dv id folderId msi).getDevice fid0 id0 = some drow := by
  unfold Db.getDevice at h ⊢
  unfold Db.updateDevice
  have hp := List.find?_some h
  simp only [Bool.and_eq_true, beq_iff_eq] at hp
  refine (find?_map_first _ _ db.devices drow h ?_ ?_).trans ?_
  · split <;> simp [hp.1, hp.2]
  · intro x _ hpx
    dsimp only
    split <;> exact hpx
  · have hcond : (drow.id == id && drow.folderId == folderId) = false := by
      rcases hne with hne | hne
      · have h1 : (drow.id == id) = false := by
          rw [hp.1]
          exact beq_eq_false_iff_ne.mpr (fun hh => hne hh.symm)
        rw [h1, Bool.false_and]
      · have h1 : (drow.folderId == folderId) = false := by
          rw [hp.2]
          exact beq_eq_false_iff_ne.mpr (fun hh => hne hh.symm)
        rw [h1, Bool.and_false]
    simp [hcond]

/-- `updateDevice` keyed on the found row rewrites exactly its data
columns. -/
theorem updateDevice_getDevice_self (db : Db) (dv : Device)
    (folderId msi : Nat) (drow : DeviceRow)
    (h : db.getDevice folderId dv.id = some drow) :
    (db.updateDevice dv dv.id folderId msi).getDevice folderId dv.id =
      some { drow with
             maxSequenceInternal := msi
             name := dv.name
             addresses := dv.addresses
             maxSequence := dv.maxSequence
             indexId := dv.indexId } := by
  unfold Db.getDevice at h ⊢
  unfold Db.updateDevice
  have hp := List.find?_some h
  have hp' := hp
  simp only [Bool.and_eq_true, beq_iff_eq] at hp'
  refine (find?_map_first _ _ db.devices drow h ?_ ?_).trans ?_
  · split <;> simp [hp'.1, hp'.2]
  · intro x _ hpx
    dsimp only
    split <;> exact hpx
  · simp [hp]

/-- A device row with a different key survives `deviceStepC` unchanged. -/
theorem deviceStepC_getDevice_stable (selfId : List Nat) (selfName : String)
    (rand : Nat → List Nat) (folderId : Nat) (st : CccState) (d : Device)
    (fid0 : Nat) (id0 : List Nat) (drow : DeviceRow)
    (h : st.db.getDevice fid0 id0 = some drow)
    (hne : d.id ≠ id0 ∨ folderId ≠ fid0) :
    (deviceStepC selfId selfName rand folderId st d).db.getDevice fid0 id0 =
      some drow := by
  unfold deviceStepC
  dsimp only
  repeat' split
  all_goals
    first
      | exact h
      | exact addDevice_getDevice_keep _ _ _ _ _ _ _ _ h
      | exact updateDevice_getDevice_other _ _ _ _ _ _ _ _ h hne

/-- A device row with a key matching none of the folded devices survives
the whole device fold. -/
theorem foldDevices_getDevice_stable (selfId : List Nat) (selfName : String)
    (rand : Nat → List Nat) (folderId : Nat) :
    ∀ (ds : List Device) (st : CccState) (fid0 : Nat) (id0 : List Nat)
      (drow : DeviceRow),
      st.db.getDevice fid0 id0 = some drow →
      (∀ d ∈ ds, d.id ≠ id0 ∨ folderId ≠ fid0) →
      (ds.foldl (deviceStepC selfId selfName rand folderId) st).db.getDevice
        fid0 id0 = some drow := by
  intro ds
  induction ds with
  | nil => intro st fid0 id0 drow h _; exact h
  | cons d rest ih =>
    intro st fid0 id0 drow h hne
    rw [List.foldl_cons]
    exact ih _ fid0 id0 drow
      (deviceStepC_getDevice_stable selfId selfName rand folderId st d
        fid0 id0 drow h (hne d (by simp)))
      (fun d' hd' => hne d' (by simp [hd']))

/-- Appending a folder row keeps any earlier first match. -/
theorem addFolder_getFolder_keep (db : Db) (f : Folder) (s : String)
    (row : FolderRow) (h : db.getFolder s = some row) :
    (db.addFolder f).1.getFolder s = some row := by
  unfold Db.getFolder at h ⊢
  unfold Db.addFolder
  exact find?_append_some _ _ _ _ h

/-- Inserting a missing folder makes it findable with exactly the
inserted column values and the fresh rowid. -/
theorem addFolder_getFolder_new (db : Db) (f : Folder)
    (h : db.getFolder f.idString = none) :
    (db.addFolder f).1.getFolder f.idString =
      some { id := db.nextFolderId
             idString := f.idString
             label := f.label
             path := f.path
             flags := f.flags } := by
  unfold Db.getFolder at h ⊢
  unfold Db.addFolder
  rw [find?_append_none _ _ _ h]
  rw [List.find?_cons_of_pos _ (by simp)]

/-- `updateFolder` keyed on the found row (with distinct rowids) rewrites
exactly its data columns. -/
theorem updateFolder_getFolder_self (db : Db) (f : Folder) (row : FolderRow)
    (hNodup : (db.folders.map FolderRow.id).Nodup)
    (h : db.getFolder f.idString = some row) :
    (db.updateFolder f row.id).getFolder f.idString =
      some { row with
             idString := f.idString
             label := f.label
             path := f.path
             flags := f.flags } := by
  unfold Db.getFolder at h ⊢
  unfold Db.updateFolder
  have hrowmem := List.mem_of_find?_eq_some h
  have hprow := List.find?_some h
  have hps := hprow
  rw [beq_iff_eq] at hps
  refine (find?_map_first _ _ db.folders row h ?_ ?_).trans ?_
  · split <;> simp [hps]
  · intro x hx hpx
    dsimp only
    split
    next hcond =>
      exfalso
      rw [beq_iff_eq] at hcond
      have hxr : x = row :=
        List.inj_on_of_nodup_map hNodup hx hrowmem hcond
      rw [hxr] at hpx
      rw [hpx] at hprow
      cases hprow
    next => exact hpx
  · simp

/-- `updateFolder` keyed on another rowid, writing another `idString`,
leaves a found row unchanged. -/
theorem updateFolder_getFolder_other (db : Db) (f : Folder) (targetId : Nat)
    (s : String) (row : FolderRow) (h : db.getFolder s = some row)
    (hs : f.idString ≠ s) (hid : row.id ≠ targetId) :
    (db.updateFolder f targetId).getFolder s = some row := by
  unfold Db.getFolder at h ⊢
  unfold Db.updateFolder
  refine (find?_map_first _ _ db.folders row h ?_ ?_).trans ?_
  · have hcond : (row.id == targetId) = false :=
      beq_eq_false_iff_ne.mpr hid
    have hps := List.find?_some h
    rw [beq_iff_eq] at hps
    simp [hcond, hps]
  · intro x _ hpx
    dsimp only
    split
    next => exact beq_eq_false_iff_ne.mpr hs
    next => exact hpx
  · have hcond : (row.id == targetId) = false :=
      beq_eq_false_iff_ne.mpr hid
    simp [hcond]

/-- `FoldersWF` depends only on the folder table and its counter. -/
theorem FoldersWF_congr (db1 db2 : Db) (hf : db2.folders = db1.folders)
    (hn : db2.nextFolderId = db1.nextFolderId) (h : FoldersWF db1) :
    FoldersWF db2 := by
  unfold FoldersWF at h ⊢
  rw [hf, hn]
  exact h

/-- `getFolder` depends only on the folder table. -/
theorem getFolder_congr (db1 db2 : Db) (h : db2.folders = db1.folders)
    (s : String) : db2.getFolder s = db1.getFolder s := by
  unfold Db.getFolder
  rw [h]

/-- `addFolder` preserves well-formedness. -/
theorem addFolder_WF (db : Db) (f : Folder) (h : FoldersWF db) :
    FoldersWF (db.addFolder f).1 := by
  obtain ⟨hnd, hb⟩ := h
  unfold Db.addFolder FoldersWF
  dsimp only
  constructor
  · rw [List.map_append]
    rw [List.nodup_append]
    refine ⟨hnd, List.nodup_singleton _, ?_⟩
    intro a ha hb'
    simp only [List.map_cons, List.map_nil, List.mem_singleton] at hb'
    rcases List.mem_map.mp ha with ⟨r, hr, hrid⟩
    subst hb'
    exact absurd hrid (Nat.ne_of_lt (hb r hr))
  · intro r hr
    rcases List.mem_append.mp hr with hr | hr
    · exact Nat.lt_succ_of_lt (hb r hr)
    · simp only [List.mem_singleton] at hr
      subst hr
      exact Nat.lt_succ_self _

/-- `updateFolder` preserves well-formedness (rowids unchanged). -/
theorem updateFolder_WF (db : Db) (f : Folder) (id : Nat) (h : FoldersWF db) :
    FoldersWF (db.updateFolder f id) := by
  obtain ⟨hnd, hb⟩ := h
  unfold Db.updateFolder FoldersWF
  dsimp only
  have hids : List.map FolderRow.id (db.folders.map fun r =>
      if r.id == id then
        { r with
          idString := f.idString
          label := f.label
          path := f.path
          flags := f.flags }
      else r) = List.map FolderRow.id db.folders := by
    rw [List.map_map]
    apply List.map_congr_left
    intro r _
    dsimp only [Function.comp]
    split <;> rfl
  constructor
  · rw [hids]; exact hnd
  · intro r hr
    rcases List.mem_map.mp hr with ⟨r0, hr0, hrr⟩
    subst hrr
    have := hb r0 hr0
    split <;> exact this

/-- `deviceStepC` establishes the settled property for its device. -/
theorem deviceStepC_settles (selfId : List Nat) (selfName : String)
    (rand : Nat → List Nat) (folderId : Nat) (st : CccState) (d : Device)
    (hns : d.id ≠ selfId) :
    ∃ drow,
      (deviceStepC selfId selfName rand folderId st d).db.getDevice folderId
        d.id = some drow ∧ deviceRowEqData d drow = true := by
  have hself : (d.id == selfId) = false := beq_eq_false_iff_ne.mpr hns
  unfold deviceStepC
  dsimp only
  simp only [hself, Bool.false_eq_true, if_false]
  split
  next hnone =>
    refine ⟨_, addDevice_getDevice_new st.db _ folderId false (rand st.randCtr)
      hnone, ?_⟩
    simp [deviceRowEqData]
  next row hsome =>
    split
    next heq => exact ⟨row, hsome, heq⟩
    next hneq =>
      have hp := List.find?_some hsome
      simp only [Bool.and_eq_true, beq_iff_eq] at hp
      refine ⟨_, updateDevice_getDevice_self st.db _ folderId _ row hsome, ?_⟩
      simp [deviceRowEqData, hp.1]

/-- The device fold establishes the settled property for every folded
device (given pairwise-distinct ids and no self device). -/
theorem foldDevices_settles (selfId : List Nat) (selfName : String)
    (rand : Nat → List Nat) (folderId : Nat) :
    ∀ (ds : List Device) (st : CccState),
      (ds.map Device.id).Nodup →
      (∀ d ∈ ds, d.id ≠ selfId) →
      ∀ d ∈ ds, ∃ drow,
        (ds.foldl (deviceStepC selfId selfName rand folderId) st).db.getDevice
          folderId d.id = some drow ∧ deviceRowEqData d drow = true := by
  intro ds
  induction ds with
  | nil => intro st _ _ d hd; cases hd
  | cons d0 rest ih =>
    intro st hnd hns d hd
    rw [List.foldl_cons]
    rcases List.mem_cons.mp hd with rfl | hd'
    · rcases deviceStepC_settles selfId selfName rand folderId st d
        (hns d (by simp)) with ⟨drow, h1, h2⟩
      refine ⟨drow, ?_, h2⟩
      refine foldDevices_getDevice_stable selfId selfName rand folderId rest
        _ folderId d.id drow h1 ?_
      intro d' hd'
      left
      intro hdd
      have hmem : d.id ∈ rest.map Device.id := by
        rw [← hdd]
        exact List.mem_map_of_mem Device.id hd'
      rw [List.map_cons, List.nodup_cons] at hnd
      exact hnd.1 hmem
    · exact ih _ (by rw [List.map_cons, List.nodup_cons] at hnd; exact hnd.2)
        (fun x hx => hns x (List.mem_cons_of_mem d0 hx)) d hd'

/-- When every folded device is already settled (and none is the self
device), the device fold is the identity. -/
theorem foldDevices_noop (selfId : List Nat) (selfName : String)
    (rand : Nat → List Nat) (folderId : Nat) :
    ∀ (ds : List Device) (st : CccState),
      (∀ d ∈ ds, ∃ drow, st.db.getDevice folderId d.id = some drow ∧
        deviceRowEqData d drow = true) →
      (∀ d ∈ ds, d.id ≠ selfId) →
      ds.foldl (deviceStepC selfId selfName rand folderId) st = st := by
  intro ds
  induction ds with
  | nil => intro st _ _; rfl
  | cons d0 rest ih =>
    intro st hset hns
    rw [List.foldl_cons]
    have hself : (d0.id == selfId) = false :=
      beq_eq_false_iff_ne.mpr (hns d0 (by simp))
    rcases hset d0 (by simp) with ⟨drow, h1, h2⟩
    have hstep : deviceStepC selfId selfName rand folderId st d0 = st := by
      unfold deviceStepC
      dsimp only
      simp only [hself, Bool.false_eq_true, if_false]
      rw [h1]
      dsimp only
      split
      next => rfl
      next hcond => exact absurd h2 hcond
    rw [hstep]
    exact ih st (fun d hd => hset d (List.mem_cons_of_mem d0 hd))
      (fun d hd => hns d (List.mem_cons_of_mem d0 hd))

/-- `folderStepC` preserves well-formedness of the folder table. -/
theorem folderStepC_WF (selfId : List Nat) (selfName : String)
    (rand : Nat → List Nat) (st : CccState) (f : Folder)
    (h : FoldersWF st.db) :
    FoldersWF (folderStepC selfId selfName rand st f).db := by
  unfold folderStepC
  dsimp only
  split
  · refine FoldersWF_congr _ _
      (foldDevices_frame selfId selfName rand _ _ _).1
      (foldDevices_frame selfId selfName rand _ _ _).2 ?_
    exact addFolder_WF st.db _ h
  next row hsome =>
    split
    next =>
      exact FoldersWF_congr _ _
        (foldDevices_frame selfId selfName rand _ _ _).1
        (foldDevices_frame selfId selfName rand _ _ _).2 h
    next =>
      refine FoldersWF_congr _ _
        (foldDevices_frame selfId selfName rand _ _ _).1
        (foldDevices_frame selfId selfName rand _ _ _).2 ?_
      exact updateFolder_WF st.db _ row.id h

/-- `folderStepC` establishes the settled property for its folder. -/
theorem folderStepC_settles (selfId : List Nat) (selfName : String)
    (rand : Nat → List Nat) (st : CccState) (f : Folder)
    (hWF : FoldersWF st.db)
    (hdevN : (f.devices.map Device.id).Nodup)
    (hns : ∀ d ∈ f.devices, d.id ≠ selfId) :
    folderSettled (folderStepC selfId selfName rand st f).db f := by
  unfold folderStepC
  dsimp only
  split
  next hnone =>
    refine ⟨{ id := st.db.nextFolderId
              idString := f.idString
              label := f.label
              path := f.idString
              flags := f.flags }, ?_, ?_, ?_⟩
    · rw [getFolder_congr _ _ (foldDevices_frame selfId selfName rand _ _ _).1]
      exact addFolder_getFolder_new st.db _ hnone
    · simp [folderRowEqData]
    · intro d hd
      exact foldDevices_settles selfId selfName rand _ f.devices _ hdevN hns
        d hd
  next row hsome =>
    split
    next heq =>
      refine ⟨row, ?_, heq, ?_⟩
      · rw [getFolder_congr _ _ (foldDevices_frame selfId selfName rand _ _ _).1]
        exact hsome
      · intro d hd
        exact foldDevices_settles selfId selfName rand _ f.devices _ hdevN hns
          d hd
    next hneq =>
      refine ⟨{ row with
                idString := f.idString
                label := f.label
                path := f.idString
                flags := f.flags }, ?_, ?_, ?_⟩
      · rw [getFolder_congr _ _ (foldDevices_frame selfId selfName rand _ _ _).1]
        exact updateFolder_getFolder_self st.db _ row hWF.1 hsome
      · simp [folderRowEqData]
      · intro d hd
        exact foldDevices_settles selfId selfName rand _ f.devices _ hdevN hns
          d hd

/-- `folderStepC` on a different folder preserves the settled property. -/
theorem folderStepC_preserves_settled (selfId : List Nat) (selfName : String)
    (rand : Nat → List Nat) (st : CccState) (g f : Folder)
    (hne : g.idString ≠ f.idString) (hWF : FoldersWF st.db)
    (hset : folderSettled st.db f) :
    folderSettled (folderStepC selfId selfName rand st g).db f := by
  obtain ⟨row, hrow, hdata, hdev⟩ := hset
  have hrowmem := List.mem_of_find?_eq_some hrow
  unfold folderStepC
  dsimp only
  split
  next hnone =>
    -- g's folder row is inserted with the fresh rowid st.db.nextFolderId
    have hid : row.id ≠ st.db.nextFolderId :=
      Nat.ne_of_lt (hWF.2 row hrowmem)
    refine ⟨row, ?_, hdata, ?_⟩
    · rw [getFolder_congr _ _ (foldDevices_frame selfId selfName rand _ _ _).1]
      exact addFolder_getFolder_keep st.db _ _ row hrow
    · intro d hd
      obtain ⟨drow, hdrow, hddata⟩ := hdev d hd
      refine ⟨drow, ?_, hddata⟩
      exact foldDevices_getDevice_stable selfId selfName rand _ g.devices _
        row.id d.id drow hdrow (fun d' _ => Or.inr (fun hh => hid hh.symm))
  next rowG hsomeG =>
    -- g's folder row exists and differs from f's row
    have hpg := List.find?_some hsomeG
    rw [beq_iff_eq] at hpg
    have hpf := List.find?_some hrow
    rw [beq_iff_eq] at hpf
    have hrowne : row ≠ rowG := by
      intro hh
      rw [hh] at hpf
      rw [hpg] at hpf
      exact hne hpf
    have hidne : row.id ≠ rowG.id := by
      intro hh
      exact hrowne (List.inj_on_of_nodup_map hWF.1 hrowmem
        (List.mem_of_find?_eq_some hsomeG) hh)
    split
    next =>
      refine ⟨row, ?_, hdata, ?_⟩
      · rw [getFolder_congr _ _ (foldDevices_frame selfId selfName rand _ _ _).1]
        exact hrow
      · intro d hd
        obtain ⟨drow, hdrow, hddata⟩ := hdev d hd
        refine ⟨drow, ?_, hddata⟩
        exact foldDevices_getDevice_stable selfId selfName rand _ g.devices _
          row.id d.id drow hdrow (fun d' _ => Or.inr (fun hh => hidne hh.symm))
    next =>
      refine ⟨row, ?_, hdata, ?_⟩
      · rw [getFolder_congr _ _ (foldDevices_frame selfId selfName rand _ _ _).1]
        exact updateFolder_getFolder_other st.db _ rowG.id f.idString row hrow
          hne hidne
      · intro d hd
        obtain ⟨drow, hdrow, hddata⟩ := hdev d hd
        refine ⟨drow, ?_, hddata⟩
        exact foldDevices_getDevice_stable selfId selfName rand _ g.devices _
          row.id d.id drow hdrow (fun d' _ => Or.inr (fun hh => hidne hh.symm))

/-- A settled folder's step is the identity. -/
theorem folderStepC_noop (selfId : List Nat) (selfName : String)
    (rand : Nat → List Nat) (st : CccState) (f : Folder)
    (hset : folderSettled st.db f)
    (hns : ∀ d ∈ f.devices, d.id ≠ selfId) :
    folderStepC selfId selfName rand st f = st := by
  obtain ⟨row, hrow, hdata, hdev⟩ := hset
  unfold folderStepC
  dsimp only
  rw [hrow]
  dsimp only
  split
  next =>
    exact foldDevices_noop selfId selfName rand row.id f.devices st hdev hns
  next hcond => exact absurd hdata hcond

/-- The folder fold preserves the settled property of a folder whose
idString none of the folded folders shares. -/
theorem foldFolders_preserves_settled (selfId : List Nat) (selfName : String)
    (rand : Nat → List Nat) :
    ∀ (fs : List Folder) (st : CccState) (f : Folder),
      FoldersWF st.db → folderSettled st.db f →
      (∀ g ∈ fs, g.idString ≠ f.idString) →
      folderSettled
        (fs.foldl (folderStepC selfId selfName rand) st).db f := by
  intro fs
  induction fs with
  | nil => intro st f _ hset _; exact hset
  | cons g rest ih =>
    intro st f hWF hset hne
    rw [List.foldl_cons]
    exact ih _ f (folderStepC_WF selfId selfName rand st g hWF)
      (folderStepC_preserves_settled selfId selfName rand st g f
        (hne g (by simp)) hWF hset)
      (fun g' hg' => hne g' (List.mem_cons_of_mem g hg'))

/-- After one application of `updateClusterConfig`, every folder of the
cluster is settled in the store. -/
theorem foldFolders_settles (selfId : List Nat) (selfName : String)
    (rand : Nat → List Nat) :
    ∀ (fs : List Folder) (st : CccState),
      FoldersWF st.db →
      (fs.map Folder.idString).Nodup →
      (∀ f ∈ fs, (f.devices.map Device.id).Nodup) →
      (∀ f ∈ fs, ∀ d ∈ f.devices, d.id ≠ selfId) →
      ∀ f ∈ fs,
        folderSettled (fs.foldl (folderStepC selfId selfName rand) st).db f := by
  intro fs
  induction fs with
  | nil => intro st _ _ _ _ f hf; cases hf
  | cons g rest ih =>
    intro st hWF hnd hdevN hns f hf
    rw [List.foldl_cons]
    rw [List.map_cons, List.nodup_cons] at hnd
    rcases List.mem_cons.mp hf with rfl | hf'
    · refine foldFolders_preserves_settled selfId selfName rand rest _ f
        (folderStepC_WF selfId selfName rand st f hWF)
        (folderStepC_settles selfId selfName rand st f hWF
          (hdevN f (by simp)) (hns f (by simp))) ?_
      intro g' hg' hh
      exact hnd.1 (hh ▸ List.mem_map_of_mem Folder.idString hg')
    · exact ih _ (folderStepC_WF selfId selfName rand st g hWF) hnd.2
        (fun x hx => hdevN x (List.mem_cons_of_mem g hx))
        (fun x hx => hns x (List.mem_cons_of_mem g hx)) f hf'

/-- When every folder of the cluster is settled (and no device is the
self device), the whole fold is the identity. -/
theorem foldFolders_noop (selfId : List Nat) (selfName : String)
    (rand : Nat → List Nat) :
    ∀ (fs : List Folder) (st : CccState),
      (∀ f ∈ fs, folderSettled st.db f) →
      (∀ f ∈ fs, ∀ d ∈ f.devices, d.id ≠ selfId) →
      fs.foldl (folderStepC selfId selfName rand) st = st := by
  intro fs
  induction fs with
  | nil => intro st _ _; rfl
  | cons g rest ih =>
    intro st hset hns
    rw [List.foldl_cons]
    rw [folderStepC_noop selfId selfName rand st g (hset g (by simp))
      (hns g (by simp))]
    exact ih st (fun f hf => hset f (List.mem_cons_of_mem g hf))
      (fun f hf => hns f (List.mem_cons_of_mem g hf))

/-- C9 amended: for a well-formed store and a cluster config with
pairwise-distinct folder ids, pairwise-distinct device ids per folder and
no self device, applying `updateClusterConfig` twice leaves the store
after the second call identical to the store after the first, and the
second application inserts or updates no folder or device row (its event
log is empty) and consumes no randomness.  (When the config carries the
self device, the second call may update that device row, overwriting the
randomly generated `indexId` — see the counterexample.) -/
theorem updateClusterConfig_idempotent_without_self (selfId : List Nat)
    (selfName : String) (rand : Nat → List Nat) (x : Cluster) (db : Db)
    (ctr : Nat) (hWF : FoldersWF db)
    (hNodupF : (x.folders.map Folder.idString).Nodup)
    (hDevN : ∀ f ∈ x.folders, (f.devices.map Device.id).Nodup)
    (hNoSelf : ∀ f ∈ x.folders, ∀ d ∈ f.devices, d.id ≠ selfId) :
    updateClusterConfig selfId selfName rand x
        (updateClusterConfig selfId selfName rand x db ctr).db
        (updateClusterConfig selfId selfName rand x db ctr).randCtr =
      { db := (updateClusterConfig selfId selfName rand x db ctr).db
        randCtr := (updateClusterConfig selfId selfName rand x db ctr).randCtr
        log := [] } := by
  unfold updateClusterConfig
  refine foldFolders_noop selfId selfName rand x.folders _ ?_ hNoSelf
  intro f hf
  exact foldFolders_settles selfId selfName rand x.folders
    { db := db, randCtr := ctr, log := [] } hWF hNodupF hDevN hNoSelf f hf

/-- Witness for `updateClusterConfig_idempotent_without_self` at the
concrete peer-only cluster config `yC9` over the empty store. -/
theorem updateClusterConfig_idempotent_without_self_witness :
    updateClusterConfig devIdW "me" randW yC9
        (updateClusterConfig devIdW "me" randW yC9 dbEmpty 0).db
        (updateClusterConfig devIdW "me" randW yC9 dbEmpty 0).randCtr =
      { db := (updateClusterConfig devIdW "me" randW yC9 dbEmpty 0).db
        randCtr := (updateClusterConfig devIdW "me" randW yC9 dbEmpty 0).randCtr
        log := [] } :=
  updateClusterConfig_idempotent_without_self devIdW "me" randW yC9 dbEmpty 0
    (by exact ⟨List.nodup_nil, fun r hr => absurd hr (List.not_mem_nil r)⟩)
    (by decide) (by decide) (by decide)

end SyncthingTS